import Mathlib

/-!
# Verification of `eventsystem.go`

A shallow embedding of the dispatch core of `go-eventsystem`.

* The datastore and the handlers are external, effectful collaborators. Their
  effects are threaded through an explicit world value `World S`: `S` is the
  state they act on, `now` is the reading `time.Now()` gives in that world.
* Every function returns, next to its Go result, the trace of what it did:
  the datastore calls with their arguments and results, the handler
  invocations, the lines given to `fmt.Println` and the goroutines started
  with `go e.onPublish()`.
* A `time.Time` field is an `Option Time`: `none` is the zero value ("absent"),
  `some t` a reading of `time.Now()`. An `error` is an `Option Err`: `none` is
  `nil`, `some msg` an error whose `Error()` text is `msg`. A `*Event` is an
  `Option (Event P)`: `none` is the nil pointer.
* Records are passed by value: `SaveEvent` receives the fields the record has
  at the call and does not write through the pointer.
-/

namespace GoEventSystem

/-- Text of a Go `error`, as `err.Error()` gives it. -/
abbrev Err := String

/-- Reading of `time.Now()`. -/
abbrev Time := Nat

/-- Modelled from the spec: the `Event` struct, whose declaration is not in
`eventsystem.go`; the fields are those the source reads and writes
(`ID`, `Name`, `Payload`, `PublishedAt`, `StartedAt`, `FinishedAt`, `Error`). -/
structure Event (P : Type) where
  ID : String
  Name : String
  Payload : P
  PublishedAt : Option Time
  StartedAt : Option Time
  FinishedAt : Option Time
  Error : Option Err
deriving DecidableEq, Repr

/-- State of everything outside the event system: the clock and the state `S`
that the datastore and the handlers act on. -/
structure World (S : Type) where
  now : Time
  state : S
deriving DecidableEq, Repr

/-- Modelled from the spec: the `Datastore` interface, whose declaration is not
in `eventsystem.go`: `SaveEvent(*Event) error` and `GetEvent() (*Event, error)`,
each acting on the world. -/
structure Datastore (S P : Type) where
  SaveEvent : Event P → World S → Option Err × World S
  GetEvent : World S → (Option (Event P) × Option Err) × World S

/-- Type `HandlerFunc`: a function from the payload to an `error`, acting on
the world. -/
abbrev HandlerFunc (S P : Type) := P → World S → Option Err × World S

/-- Struct `EventHandler`. -/
structure EventHandler (S P : Type) where
  Event : String
  Handler : HandlerFunc S P

/-- Struct `EventSystem`. -/
structure EventSystem (S P : Type) where
  handlers : List (EventHandler S P)
  datastore : Datastore S P
  enableLog : Bool

/-- What a function of the event system does that is visible outside it. -/
inductive Action (P : Type) where
  /-- Statement `fmt.Println(msg)`. -/
  | log (msg : String)
  /-- Call `e.datastore.SaveEvent(ev)` returning `res`. -/
  | save (ev : Event P) (res : Option Err)
  /-- Call `e.datastore.GetEvent()` returning `(ev, err)`. -/
  | get (ev : Option (Event P)) (err : Option Err)
  /-- Invocation of the handler at position `idx` of `e.handlers` on `payload`,
  returning `res`. -/
  | call (idx : Nat) (payload : P) (res : Option Err)
  /-- Statement `go e.onPublish()`. -/
  | spawn
deriving DecidableEq, Repr

/-- Result of running a function: `ret = none` is a runtime panic, `some a` a
normal return of `a`; `world` is the world it leaves; `trace` what it did, in
order. -/
structure Run (S P α : Type) where
  ret : Option α
  world : World S
  trace : List (Action P)

/-- Constructor `NewEventSystem`. -/
def NewEventSystem {S P : Type} (datastore : Datastore S P) (enableLog : Bool) :
    EventSystem S P :=
  { handlers := [], datastore := datastore, enableLog := enableLog }

/-- Method `EventSystem.log`: the line is printed only when `enableLog` is set. -/
def EventSystem.log {S P : Type} (e : EventSystem S P) (msg : String) :
    List (Action P) :=
  if e.enableLog then [Action.log msg] else []

/-- Method `EventSystem.Register`: returns the system with the handler appended. -/
def EventSystem.Register {S P : Type} (e : EventSystem S P)
    (handler : EventHandler S P) : EventSystem S P × List (Action P) :=
  ({ e with handlers := e.handlers ++ [handler] },
   e.log ("EventSystem.Register handler for " ++ handler.Event))

/-- Method `EventSystem.Publish`. -/
def EventSystem.Publish {S P : Type} (e : EventSystem S P) (event : String)
    (payload : P) (w : World S) : Run S P (Option Err) :=
  let t0 := e.log ("EventSystem.Publish event for " ++ event)
  let ev : Event P :=
    { ID := "", Name := event, Payload := payload, PublishedAt := some w.now,
      StartedAt := none, FinishedAt := none, Error := none }
  match e.datastore.SaveEvent ev w with
  | (some err, w1) => ⟨some (some err), w1, t0 ++ [Action.save ev (some err)]⟩
  | (none, w1) => ⟨some none, w1, t0 ++ [Action.save ev none, Action.spawn]⟩

/-- The loop `for _, handler := range e.handlers` of `onPublish`, run on the
handlers still to visit, the first of them at position `idx`. The Boolean is
`true` when the loop ran to its end (control reaches the code after it) and
`false` when the body returned from `onPublish`. -/
def EventSystem.handlerLoop {S P : Type} (e : EventSystem S P) (event : Event P) :
    List (EventHandler S P) → Nat → World S → Bool × World S × List (Action P)
  | [], _, w => (true, w, [])
  | handler :: rest, idx, w =>
    if handler.Event = event.Name then
      match handler.Handler event.Payload w with
      | (some err, w1) =>
        let event1 := { event with Error := some err }
        match e.datastore.SaveEvent event1 w1 with
        | (some err2, w2) =>
          (false, w2,
            [Action.call idx event.Payload (some err)]
              ++ e.log ("Failed to handle event; " ++ err)
              ++ [Action.save event1 (some err2)]
              ++ e.log ("Failed to save event; " ++ err2))
        | (none, w2) =>
          (false, w2,
            [Action.call idx event.Payload (some err)]
              ++ e.log ("Failed to handle event; " ++ err)
              ++ [Action.save event1 none])
      | (none, w1) =>
        match e.handlerLoop event rest (idx + 1) w1 with
        | (fin, w2, tr) => (fin, w2, Action.call idx event.Payload none :: tr)
    else
      e.handlerLoop event rest (idx + 1) w

/-- Method `EventSystem.onPublish`. When the candidate carries an error, the argument
of the log call is `err.Error()` with `err` the fetch error, which is `nil` at
that point: evaluating it is a nil dereference, before `e.log` is entered. -/
def EventSystem.onPublish {S P : Type} (e : EventSystem S P) (w : World S) :
    Run S P Unit :=
  match e.datastore.GetEvent w with
  | ((event, some err), w1) =>
    ⟨some (), w1, [Action.get event (some err)] ++ e.log ("Failed to get event; " ++ err)⟩
  | ((none, none), w1) =>
    ⟨some (), w1, [Action.get none none] ++ e.log ("No event available")⟩
  | ((some event, none), w1) =>
    match event.Error with
    | some _ => ⟨none, w1, [Action.get (some event) none]⟩
    | none =>
      let event1 := { event with StartedAt := some w1.now }
      match e.datastore.SaveEvent event1 w1 with
      | (some err, w2) =>
        ⟨some (), w2,
          [Action.get (some event) none, Action.save event1 (some err)]
            ++ e.log ("Failed to save event; " ++ err)⟩
      | (none, w2) =>
        match e.handlerLoop event1 e.handlers 0 w2 with
        | (false, w3, tr) =>
          ⟨some (), w3, [Action.get (some event) none, Action.save event1 none] ++ tr⟩
        | (true, w3, tr) =>
          let event2 := { event1 with FinishedAt := some w3.now }
          match e.datastore.SaveEvent event2 w3 with
          | (some err, w4) =>
            ⟨some (), w4,
              [Action.get (some event) none, Action.save event1 none] ++ tr
                ++ [Action.save event2 (some err)]
                ++ e.log ("Failed to save event; " ++ err)⟩
          | (none, w4) =>
            ⟨some (), w4,
              [Action.get (some event) none, Action.save event1 none] ++ tr
                ++ [Action.save event2 none]⟩

/-- Method `EventSystem.Restart`. -/
def EventSystem.Restart {S P : Type} (e : EventSystem S P) (w : World S) :
    Run S P Unit :=
  let t0 := e.log ("EventSystem.Restart")
  match e.datastore.GetEvent w with
  | ((event, some err), w1) =>
    ⟨some (), w1, t0 ++ [Action.get event (some err)]
      ++ e.log ("Failed to get event; " ++ err)⟩
  | ((none, none), w1) =>
    ⟨some (), w1, t0 ++ [Action.get none none, Action.spawn]⟩
  | ((some event, none), w1) =>
    match event.Error with
    | none => ⟨some (), w1, t0 ++ [Action.get (some event) none, Action.spawn]⟩
    | some _ =>
      let event1 := { event with Error := none }
      match e.datastore.SaveEvent event1 w1 with
      | (some err, w2) =>
        ⟨some (), w2,
          t0 ++ [Action.get (some event) none]
            ++ e.log ("Try to restart failed event " ++ event.Name)
            ++ [Action.save event1 (some err)]
            ++ e.log ("Failed to save event; " ++ err)⟩
      | (none, w2) =>
        ⟨some (), w2,
          t0 ++ [Action.get (some event) none]
            ++ e.log ("Try to restart failed event " ++ event.Name)
            ++ [Action.save event1 none, Action.spawn]⟩

/-! ## Observations on traces -/

/-- Records passed to `SaveEvent`, in call order. -/
def saves {P : Type} : List (Action P) → List (Event P)
  | [] => []
  | Action.save ev _ :: t => ev :: saves t
  | _ :: t => saves t

/-- Handler invocations, in order: position in `e.handlers`, argument, result. -/
def calls {P : Type} : List (Action P) → List (Nat × P × Option Err)
  | [] => []
  | Action.call i p r :: t => (i, p, r) :: calls t
  | _ :: t => calls t

/-- Number of `go e.onPublish()` statements executed. -/
def spawns {P : Type} : List (Action P) → Nat
  | [] => 0
  | Action.spawn :: t => spawns t + 1
  | _ :: t => spawns t

/-- Number of `GetEvent` calls. -/
def gets {P : Type} : List (Action P) → Nat
  | [] => 0
  | Action.get _ _ :: t => gets t + 1
  | _ :: t => gets t

/-- Lines printed. -/
def logs {P : Type} : List (Action P) → List String
  | [] => []
  | Action.log m :: t => m :: logs t
  | _ :: t => logs t

/-! ## Dispatch as the specification words it -/

/-- Bindings of `hs` registered under `name`, each with its position in `hs`,
in registration order. -/
def matching {S P : Type} (hs : List (EventHandler S P)) (name : String) :
    List (Nat × EventHandler S P) :=
  hs.enum.filter (fun ih => decide (ih.2.Event = name))

/-- Invoke the given bindings in order on `payload`, stopping at the first that
fails. Gives the invocations made, the error of the failing one (`none` when
all succeeded) and the world left by the last invocation. -/
def dispatch {S P : Type} (payload : P) :
    List (Nat × EventHandler S P) → World S →
      List (Nat × P × Option Err) × Option Err × World S
  | [], w => ([], none, w)
  | (i, h) :: rest, w =>
    match h.Handler payload w with
    | (some err, w1) => ([(i, payload, some err)], some err, w1)
    | (none, w1) =>
      match dispatch payload rest w1 with
      | (cs, r, w2) => ((i, payload, none) :: cs, r, w2)

/-- Trace entry of a handler invocation. -/
def callAction {P : Type} (c : Nat × P × Option Err) : Action P :=
  Action.call c.1 c.2.1 c.2.2

/-- Record that `Publish` builds. -/
def newEvent {S P : Type} (name : String) (payload : P) (w : World S) : Event P :=
  { ID := "", Name := name, Payload := payload, PublishedAt := some w.now,
    StartedAt := none, FinishedAt := none, Error := none }

/-- What `handlerLoop` does, told through `dispatch`: the bound handlers are
invoked in order up to the first failure; after a failure the record is saved
with that error and `onPublish` returns. -/
def loopSpec {S P : Type} (e : EventSystem S P) (event : Event P)
    (bound : List (Nat × EventHandler S P)) (w : World S) :
    Bool × World S × List (Action P) :=
  match dispatch event.Payload bound w with
  | (cs, none, w1) => (true, w1, cs.map callAction)
  | (cs, some err, w1) =>
    match e.datastore.SaveEvent { event with Error := some err } w1 with
    | (some err2, w2) =>
      (false, w2,
        cs.map callAction ++ e.log ("Failed to handle event; " ++ err)
          ++ [Action.save { event with Error := some err } (some err2)]
          ++ e.log ("Failed to save event; " ++ err2))
    | (none, w2) =>
      (false, w2,
        cs.map callAction ++ e.log ("Failed to handle event; " ++ err)
          ++ [Action.save { event with Error := some err } none])

/-- Observation keeping the datastore writes and the handler invocations of a
trace. -/
def isSaveOrCall {P : Type} : Action P → Bool
  | Action.save _ _ => true
  | Action.call _ _ _ => true
  | _ => false

/-- Trace without the printed lines. -/
def unlogged {P : Type} : List (Action P) → List (Action P)
  | [] => []
  | Action.log _ :: t => unlogged t
  | a :: t => a :: unlogged t

/-- Run with the printed lines left out of its trace: the result, the world,
and the datastore calls, handler invocations and started goroutines in order. -/
def Run.unlogged {S P α : Type} (r : Run S P α) : Run S P α :=
  ⟨r.ret, r.world, GoEventSystem.unlogged r.trace⟩

/-! ## The two halves of a processing step -/

/-- First half of `onPublish`, up to the halt-on-error gate: the `GetEvent`
call and the three checks on its result. Returns the candidate when the step
goes on, `none` when the step returned. -/
def EventSystem.fetchCandidate {S P : Type} (e : EventSystem S P) (w : World S) :
    Run S P (Option (Event P)) :=
  match e.datastore.GetEvent w with
  | ((event, some err), w1) =>
    ⟨some none, w1, [Action.get event (some err)] ++ e.log ("Failed to get event; " ++ err)⟩
  | ((none, none), w1) =>
    ⟨some none, w1, [Action.get none none] ++ e.log ("No event available")⟩
  | ((some event, none), w1) =>
    match event.Error with
    | some _ => ⟨none, w1, [Action.get (some event) none]⟩
    | none => ⟨some (some event), w1, [Action.get (some event) none]⟩

/-- Second half of `onPublish`, from `event.StartedAt = time.Now()` to the end,
on the candidate `event`. -/
def EventSystem.processCandidate {S P : Type} (e : EventSystem S P) (event : Event P)
    (w1 : World S) : Run S P Unit :=
  let event1 := { event with StartedAt := some w1.now }
  match e.datastore.SaveEvent event1 w1 with
  | (some err, w2) =>
    ⟨some (), w2, [Action.save event1 (some err)] ++ e.log ("Failed to save event; " ++ err)⟩
  | (none, w2) =>
    match e.handlerLoop event1 e.handlers 0 w2 with
    | (false, w3, tr) => ⟨some (), w3, [Action.save event1 none] ++ tr⟩
    | (true, w3, tr) =>
      let event2 := { event1 with FinishedAt := some w3.now }
      match e.datastore.SaveEvent event2 w3 with
      | (some err, w4) =>
        ⟨some (), w4,
          [Action.save event1 none] ++ tr ++ [Action.save event2 (some err)]
            ++ e.log ("Failed to save event; " ++ err)⟩
      | (none, w4) =>
        ⟨some (), w4, [Action.save event1 none] ++ tr ++ [Action.save event2 none]⟩

/-- The two halves run one after the other. -/
def EventSystem.fetchThenProcess {S P : Type} (e : EventSystem S P) (w : World S) :
    Run S P Unit :=
  match e.fetchCandidate w with
  | ⟨none, w1, tr⟩ => ⟨none, w1, tr⟩
  | ⟨some none, w1, tr⟩ => ⟨some (), w1, tr⟩
  | ⟨some (some event), w1, tr⟩ =>
    ⟨(e.processCandidate event w1).ret, (e.processCandidate event w1).world,
      tr ++ (e.processCandidate event w1).trace⟩

/-! ## Lifecycle of a record -/

/-- Record not started: `StartedAt`, `FinishedAt` and `Error` absent. -/
def Event.notStarted {P : Type} (r : Event P) : Prop :=
  r.StartedAt = none ∧ r.FinishedAt = none ∧ r.Error = none

/-- Record started and pending: `StartedAt` set, `FinishedAt` and `Error` absent. -/
def Event.pending {P : Type} (r : Event P) : Prop :=
  r.StartedAt ≠ none ∧ r.FinishedAt = none ∧ r.Error = none

/-- Record finished: `StartedAt` and `FinishedAt` set, `Error` absent. -/
def Event.finished {P : Type} (r : Event P) : Prop :=
  r.StartedAt ≠ none ∧ r.FinishedAt ≠ none ∧ r.Error = none

/-- Record errored: `StartedAt` and `Error` set, `FinishedAt` absent. -/
def Event.errored {P : Type} (r : Event P) : Prop :=
  r.StartedAt ≠ none ∧ r.FinishedAt = none ∧ r.Error ≠ none

/-- Persisted states of a record that can arise from `Publish` through
processing steps and `Restart` calls of event systems over the datastore `ds`,
when the candidate `GetEvent` gives is always a persisted state: the state
`Publish` saves (with the identifier the datastore gives it), and every state
that a processing step or a `Restart` fetching such a candidate saves
successfully. -/
inductive Persisted {S P : Type} (ds : Datastore S P) : Event P → Prop where
  | publish (e : EventSystem S P) (name : String) (payload : P) (w : World S) (id : String)
      (hds : e.datastore = ds)
      (hsaved : Action.save (newEvent name payload w) none ∈ (e.Publish name payload w).trace) :
      Persisted ds { newEvent name payload w with ID := id }
  | step (e : EventSystem S P) (w : World S) (c r : Event P)
      (hds : e.datastore = ds) (hc : Persisted ds c)
      (hcand : (e.datastore.GetEvent w).1.1 = some c)
      (hsaved : Action.save r none ∈ (e.onPublish w).trace) :
      Persisted ds r
  | restart (e : EventSystem S P) (w : World S) (c r : Event P)
      (hds : e.datastore = ds) (hc : Persisted ds c)
      (hcand : (e.datastore.GetEvent w).1.1 = some c)
      (hsaved : Action.save r none ∈ (e.Restart w).trace) :
      Persisted ds r

/-! ## Example collaborators -/

/-- Example datastore: one slot, holding the record saved last, which
`GetEvent` gives back as the candidate. Each call advances the clock and none
fails. -/
def slotStore : Datastore (Option (Event Nat)) Nat where
  SaveEvent := fun ev w => (none, { now := w.now + 1, state := some ev })
  GetEvent := fun w => ((w.state, none), { now := w.now + 1, state := w.state })

/-- Example handler that succeeds. -/
def okHandler (name : String) : EventHandler (Option (Event Nat)) Nat :=
  { Event := name, Handler := fun _ w => (none, { now := w.now + 1, state := w.state }) }

/-- Example handler that fails with `msg`. -/
def failHandler (name : String) (msg : Err) : EventHandler (Option (Event Nat)) Nat :=
  { Event := name, Handler := fun _ w => (some msg, { now := w.now + 1, state := w.state }) }

/-- Example record, as `Publish` leaves it in the datastore. -/
def orderCreated : Event Nat :=
  { ID := "1", Name := "order.created", Payload := 1, PublishedAt := some 1,
    StartedAt := none, FinishedAt := none, Error := none }

/-- Example record that carries an error. -/
def orderFailed : Event Nat :=
  { ID := "1", Name := "order.created", Payload := 1, PublishedAt := some 1,
    StartedAt := some 2, FinishedAt := none, Error := some "insufficient stock" }

/-- Example system whose handlers for `order.created` all succeed. -/
def sysOk : EventSystem (Option (Event Nat)) Nat :=
  { handlers := [okHandler "order.created", okHandler "order.paid", okHandler "order.created"],
    datastore := slotStore, enableLog := true }

/-- Example system in which the second handler for `order.created` fails. -/
def sysFail : EventSystem (Option (Event Nat)) Nat :=
  { handlers :=
      [okHandler "order.created", okHandler "order.paid",
        failHandler "order.created" "insufficient stock", okHandler "order.created"],
    datastore := slotStore, enableLog := true }

/-- Example datastore: one slot, holding the record saved last, which
`GetEvent` gives back as the candidate unless it is finished. Each call
advances the clock and none fails. -/
def pendingStore : Datastore (Option (Event Nat)) Nat where
  SaveEvent := fun ev w => (none, { now := w.now + 1, state := some ev })
  GetEvent := fun w =>
    ((w.state.filter (fun r => r.FinishedAt.isNone), none),
      { now := w.now + 1, state := w.state })

/-- Example system over `pendingStore` in which the second handler for
`order.created` fails. -/
def sysPending : EventSystem (Option (Event Nat)) Nat :=
  { handlers :=
      [okHandler "order.created", failHandler "order.created" "insufficient stock"],
    datastore := pendingStore, enableLog := false }

/-- Example datastore whose `SaveEvent` fails; `GetEvent` gives the record in
the slot. -/
def brokenStore : Datastore (Option (Event Nat)) Nat where
  SaveEvent := fun _ w => (some "disk full", { now := w.now + 1, state := w.state })
  GetEvent := fun w => ((w.state, none), { now := w.now + 1, state := w.state })

/-- Example datastore whose `GetEvent` fails. -/
def downStore : Datastore (Option (Event Nat)) Nat where
  SaveEvent := fun ev w => (none, { now := w.now + 1, state := some ev })
  GetEvent := fun w => ((none, some "connection refused"), { now := w.now + 1, state := w.state })

/-- Example system over `brokenStore`. -/
def sysBroken : EventSystem (Option (Event Nat)) Nat :=
  { handlers := [okHandler "order.created"], datastore := brokenStore, enableLog := true }

/-- Example system over `downStore`. -/
def sysDown : EventSystem (Option (Event Nat)) Nat :=
  { handlers := [okHandler "order.created"], datastore := downStore, enableLog := true }

/-- Example handler that succeeds while the clock reads less than 9 and fails
afterwards. -/
def deadlineHandler (name : String) : EventHandler (Option (Event Nat)) Nat :=
  { Event := name,
    Handler := fun _ w =>
      (if w.now < 9 then none else some "too late", { now := w.now + 1, state := w.state }) }

/-- Example system with three handlers for `order.created`: one that succeeds
only before its deadline, one that succeeds, one that fails. -/
def sysFlaky : EventSystem (Option (Event Nat)) Nat :=
  { handlers :=
      [deadlineHandler "order.created", okHandler "order.created",
        failHandler "order.created" "insufficient stock"],
    datastore := slotStore, enableLog := false }

/-- Example record already started, with no error: the state in which `Restart`
leaves a failed record. -/
def orderRestarted : Event Nat :=
  { ID := "1", Name := "order.created", Payload := 1, PublishedAt := some 1,
    StartedAt := some 2, FinishedAt := none, Error := none }

/-! ## Lemmas on traces -/

@[simp]
theorem saves_append {P : Type} (a b : List (Action P)) :
    saves (a ++ b) = saves a ++ saves b := by
  induction a with
  | nil => rfl
  | cons x t ih => cases x <;> simp [saves, ih]

@[simp]
theorem calls_append {P : Type} (a b : List (Action P)) :
    calls (a ++ b) = calls a ++ calls b := by
  induction a with
  | nil => rfl
  | cons x t ih => cases x <;> simp [calls, ih]

@[simp]
theorem spawns_append {P : Type} (a b : List (Action P)) :
    spawns (a ++ b) = spawns a + spawns b := by
  induction a with
  | nil => simp [spawns]
  | cons x t ih => cases x <;> simp [spawns, ih]; omega

@[simp]
theorem gets_append {P : Type} (a b : List (Action P)) :
    gets (a ++ b) = gets a + gets b := by
  induction a with
  | nil => simp [gets]
  | cons x t ih => cases x <;> simp [gets, ih]; omega

@[simp]
theorem logs_append {P : Type} (a b : List (Action P)) :
    logs (a ++ b) = logs a ++ logs b := by
  induction a with
  | nil => rfl
  | cons x t ih => cases x <;> simp [logs, ih]

@[simp]
theorem saves_log {S P : Type} (e : EventSystem S P) (m : String) : saves (e.log m) = [] := by
  unfold EventSystem.log; split <;> rfl

@[simp]
theorem calls_log {S P : Type} (e : EventSystem S P) (m : String) : calls (e.log m) = [] := by
  unfold EventSystem.log; split <;> rfl

@[simp]
theorem spawns_log {S P : Type} (e : EventSystem S P) (m : String) : spawns (e.log m) = 0 := by
  unfold EventSystem.log; split <;> rfl

@[simp]
theorem gets_log {S P : Type} (e : EventSystem S P) (m : String) : gets (e.log m) = 0 := by
  unfold EventSystem.log; split <;> rfl

@[simp]
theorem saves_map_callAction {P : Type} (cs : List (Nat × P × Option Err)) :
    saves (cs.map (callAction : _ → Action P)) = [] := by
  induction cs with
  | nil => rfl
  | cons c t ih => simpa [callAction, saves] using ih

@[simp]
theorem calls_map_callAction {P : Type} (cs : List (Nat × P × Option Err)) :
    calls (cs.map (callAction : _ → Action P)) = cs := by
  induction cs with
  | nil => rfl
  | cons c t ih => simp [callAction, calls, ih]

@[simp]
theorem gets_map_callAction {P : Type} (cs : List (Nat × P × Option Err)) :
    gets (cs.map (callAction : _ → Action P)) = 0 := by
  induction cs with
  | nil => rfl
  | cons c t ih => simpa [callAction, gets] using ih

@[simp]
theorem spawns_map_callAction {P : Type} (cs : List (Nat × P × Option Err)) :
    spawns (cs.map (callAction : _ → Action P)) = 0 := by
  induction cs with
  | nil => rfl
  | cons c t ih => simpa [callAction, spawns] using ih

@[simp]
theorem filter_isSaveOrCall_log {S P : Type} (e : EventSystem S P) (m : String) :
    (e.log m).filter (isSaveOrCall : Action P → Bool) = [] := by
  unfold EventSystem.log; split <;> rfl

@[simp]
theorem filter_isSaveOrCall_map_callAction {P : Type} (cs : List (Nat × P × Option Err)) :
    (cs.map (callAction : _ → Action P)).filter isSaveOrCall = cs.map callAction := by
  induction cs with
  | nil => rfl
  | cons c t ih => simp [callAction, isSaveOrCall, ih]

theorem saves_filter_isSaveOrCall {P : Type} (tr : List (Action P)) :
    saves (tr.filter isSaveOrCall) = saves tr := by
  induction tr with
  | nil => rfl
  | cons x t ih => cases x <;> simp [saves, isSaveOrCall, ih]

theorem calls_filter_isSaveOrCall {P : Type} (tr : List (Action P)) :
    calls (tr.filter isSaveOrCall) = calls tr := by
  induction tr with
  | nil => rfl
  | cons x t ih => cases x <;> simp [calls, isSaveOrCall, ih]


/-! ## Publish -/

theorem publish_save_failed {S P : Type} (e : EventSystem S P) (name : String)
    (payload : P) (w w1 : World S) (err : Err)
    (h : e.datastore.SaveEvent (newEvent name payload w) w = (some err, w1)) :
    e.Publish name payload w =
      ⟨some (some err), w1,
        e.log ("EventSystem.Publish event for " ++ name)
          ++ [Action.save (newEvent name payload w) (some err)]⟩ := by
  simp only [newEvent] at h
  simp only [EventSystem.Publish, h, newEvent]

theorem publish_save_ok {S P : Type} (e : EventSystem S P) (name : String)
    (payload : P) (w w1 : World S)
    (h : e.datastore.SaveEvent (newEvent name payload w) w = (none, w1)) :
    e.Publish name payload w =
      ⟨some none, w1,
        e.log ("EventSystem.Publish event for " ++ name)
          ++ [Action.save (newEvent name payload w) none, Action.spawn]⟩ := by
  simp only [newEvent] at h
  simp only [EventSystem.Publish, h, newEvent]

/-- C1: `Publish` returns exactly what `SaveEvent` returned for the new record,
so it returns a non-nil error if and only if that call failed; it starts no
processing attempt when the call failed and exactly one when it succeeded. -/
theorem C1_publish_error_iff_save_fails {S P : Type} (e : EventSystem S P)
    (name : String) (payload : P) (w : World S) :
    (e.Publish name payload w).ret
        = some (e.datastore.SaveEvent (newEvent name payload w) w).1 ∧
      ((∃ err, (e.Publish name payload w).ret = some (some err)) ↔
        (e.datastore.SaveEvent (newEvent name payload w) w).1 ≠ none) ∧
      ((e.datastore.SaveEvent (newEvent name payload w) w).1 ≠ none →
        spawns (e.Publish name payload w).trace = 0) ∧
      ((e.datastore.SaveEvent (newEvent name payload w) w).1 = none →
        (e.Publish name payload w).ret = some none ∧
          spawns (e.Publish name payload w).trace = 1) := by
  rcases hs : e.datastore.SaveEvent (newEvent name payload w) w with ⟨o, w1⟩
  cases o with
  | none => rw [publish_save_ok e name payload w w1 hs]; simp [spawns]
  | some err => rw [publish_save_failed e name payload w w1 err hs]; simp [spawns]

/-- C2: `Publish(n, p)` makes exactly one `SaveEvent` call, on the record with
empty `ID`, `Name = n`, `Payload = p`, `PublishedAt` the current time, and
`StartedAt`, `FinishedAt` and `Error` absent. -/
theorem C2_publish_saves_fresh_record {S P : Type} (e : EventSystem S P)
    (name : String) (payload : P) (w : World S) :
    saves (e.Publish name payload w).trace =
      [{ ID := "", Name := name, Payload := payload, PublishedAt := some w.now,
         StartedAt := none, FinishedAt := none, Error := none }] := by
  rcases hs : e.datastore.SaveEvent (newEvent name payload w) w with ⟨o, w1⟩
  cases o with
  | none => rw [publish_save_ok e name payload w w1 hs]; simp [saves, newEvent]
  | some err => rw [publish_save_failed e name payload w w1 err hs]; simp [saves, newEvent]

/-! ## The handler loop -/

theorem handlerLoop_eq_loopSpec {S P : Type} (e : EventSystem S P) (event : Event P)
    (hs : List (EventHandler S P)) (idx : Nat) (w : World S) :
    e.handlerLoop event hs idx w =
      loopSpec e event
        ((hs.enumFrom idx).filter (fun ih => decide (ih.2.Event = event.Name))) w := by
  induction hs generalizing idx w with
  | nil => simp [EventSystem.handlerLoop, loopSpec, dispatch]
  | cons h rest ih =>
    by_cases hm : h.Event = event.Name
    · rcases hh : h.Handler event.Payload w with ⟨r, w1⟩
      cases r with
      | some err =>
        rcases hsv : e.datastore.SaveEvent { event with Error := some err } w1 with ⟨r2, w2⟩
        cases r2 <;>
          simp [EventSystem.handlerLoop, loopSpec, dispatch, hm, hh, hsv, List.enumFrom,
            callAction]
      | none =>
        have ih1 := ih (idx + 1) w1
        simp only [EventSystem.handlerLoop, hm, if_true, hh, ih1, loopSpec, List.enumFrom,
          List.filter_cons, decide_True, dispatch]
        rcases hd : dispatch event.Payload
          (List.filter (fun ih => decide (ih.2.Event = event.Name))
            (List.enumFrom (idx + 1) rest)) w1 with ⟨cs, r, w2⟩
        cases r with
        | none => simp [callAction]
        | some err =>
          rcases hsv : e.datastore.SaveEvent { event with Error := some err } w2 with ⟨r2, w3⟩
          cases r2 <;> simp [callAction, hsv]
    · simp [EventSystem.handlerLoop, hm, ih, List.enumFrom]

/-! ## Properties of `dispatch` -/

theorem dispatch_ok_calls {S P : Type} (p : P) (bound : List (Nat × EventHandler S P))
    (w : World S) (h : (dispatch p bound w).2.1 = none) :
    (dispatch p bound w).1 = bound.map (fun ih => (ih.1, p, none)) := by
  induction bound generalizing w with
  | nil => rfl
  | cons b rest ih =>
    obtain ⟨i, hd⟩ := b
    rcases hh : hd.Handler p w with ⟨r, w1⟩
    cases r with
    | some err => simp [dispatch, hh] at h
    | none =>
      simp only [dispatch, hh] at h ⊢
      simpa using ih w1 h

theorem dispatch_calls_mem {S P : Type} (p : P) (bound : List (Nat × EventHandler S P))
    (w : World S) (c : Nat × P × Option Err) (hc : c ∈ (dispatch p bound w).1) :
    c.1 ∈ bound.map Prod.fst := by
  induction bound generalizing w with
  | nil => simp [dispatch] at hc
  | cons b rest ih =>
    obtain ⟨i, hd⟩ := b
    rcases hh : hd.Handler p w with ⟨r, w1⟩
    cases r with
    | some err =>
      simp only [dispatch, hh, List.mem_singleton] at hc
      subst hc
      simp
    | none =>
      simp only [dispatch, hh, List.mem_cons] at hc
      rcases hc with hc | hc
      · subst hc
        simp
      · have := ih w1 hc
        simp only [List.map_cons, List.mem_cons]
        exact Or.inr this

theorem dispatch_failure_last {S P : Type} (p : P) (bound : List (Nat × EventHandler S P))
    (hsorted : (bound.map Prod.fst).Pairwise (· < ·))
    (w : World S) (i : Nat) (q : P) (err : Err)
    (hi : (i, q, some err) ∈ (dispatch p bound w).1) :
    ∀ c ∈ (dispatch p bound w).1, c.1 ≤ i := by
  induction bound generalizing w with
  | nil => simp [dispatch] at hi
  | cons b rest ih =>
    obtain ⟨j, hd⟩ := b
    simp only [List.map_cons, List.pairwise_cons] at hsorted
    rcases hh : hd.Handler p w with ⟨r, w1⟩
    cases r with
    | some e1 =>
      simp only [dispatch, hh, List.mem_singleton] at hi ⊢
      intro c hc
      subst hc
      simp [Prod.ext_iff] at hi
      omega
    | none =>
      simp only [dispatch, hh, List.mem_cons] at hi ⊢
      rcases hi with hi | hi
      · simp [Prod.ext_iff] at hi
      · intro c hc
        rcases hc with hc | hc
        · subst hc
          have := dispatch_calls_mem p rest w1 _ hi
          exact Nat.le_of_lt (hsorted.1 _ this)
        · exact ih hsorted.2 w1 hi c hc

theorem matching_sorted {S P : Type} (hs : List (EventHandler S P)) (name : String) :
    ((matching hs name).map Prod.fst).Pairwise (· < ·) := by
  unfold matching
  rw [List.pairwise_map]
  apply List.Pairwise.filter
  rw [← List.pairwise_map (f := Prod.fst) (R := (· < ·))]
  rw [List.enum, List.enumFrom_map_fst]
  exact List.pairwise_lt_range' 0 hs.length

/-! ## Paths through `onPublish` -/

theorem onPublish_get_failed {S P : Type} (e : EventSystem S P) (w w1 : World S)
    (cand : Option (Event P)) (err : Err)
    (hget : e.datastore.GetEvent w = ((cand, some err), w1)) :
    e.onPublish w =
      ⟨some (), w1, [Action.get cand (some err)] ++ e.log ("Failed to get event; " ++ err)⟩ := by
  simp only [EventSystem.onPublish, hget]

theorem onPublish_no_event {S P : Type} (e : EventSystem S P) (w w1 : World S)
    (hget : e.datastore.GetEvent w = ((none, none), w1)) :
    e.onPublish w =
      ⟨some (), w1, [Action.get none none] ++ e.log ("No event available")⟩ := by
  simp only [EventSystem.onPublish, hget]

theorem onPublish_blocked {S P : Type} (e : EventSystem S P) (w w1 : World S)
    (ev : Event P) (x : Err)
    (hget : e.datastore.GetEvent w = ((some ev, none), w1)) (herr : ev.Error = some x) :
    e.onPublish w = ⟨none, w1, [Action.get (some ev) none]⟩ := by
  simp only [EventSystem.onPublish, hget, herr]

theorem onPublish_start_failed {S P : Type} (e : EventSystem S P) (w w1 w2 : World S)
    (ev : Event P) (err : Err)
    (hget : e.datastore.GetEvent w = ((some ev, none), w1)) (herr : ev.Error = none)
    (hsave : e.datastore.SaveEvent { ev with StartedAt := some w1.now } w1 = (some err, w2)) :
    e.onPublish w =
      ⟨some (), w2,
        [Action.get (some ev) none,
          Action.save { ev with StartedAt := some w1.now } (some err)]
          ++ e.log ("Failed to save event; " ++ err)⟩ := by
  simp only [herr] at hsave
  simp only [EventSystem.onPublish, hget, herr, hsave]

theorem onPublish_handler_failed {S P : Type} (e : EventSystem S P) (w w1 w2 : World S)
    (ev : Event P) (err : Err)
    (hget : e.datastore.GetEvent w = ((some ev, none), w1)) (herr : ev.Error = none)
    (hsave : e.datastore.SaveEvent { ev with StartedAt := some w1.now } w1 = (none, w2))
    (hd : (dispatch ev.Payload (matching e.handlers ev.Name) w2).2.1 = some err) :
    ∃ res w3 tail,
      e.onPublish w =
        ⟨some (), w3,
          [Action.get (some ev) none, Action.save { ev with StartedAt := some w1.now } none]
            ++ (dispatch ev.Payload (matching e.handlers ev.Name) w2).1.map callAction
            ++ e.log ("Failed to handle event; " ++ err)
            ++ [Action.save { ev with StartedAt := some w1.now, Error := some err } res]
            ++ tail⟩ ∧
      saves tail = [] ∧ calls tail = [] ∧ gets tail = 0 ∧ spawns tail = 0 ∧
        tail.filter isSaveOrCall = [] := by
  rcases hdd : dispatch ev.Payload (matching e.handlers ev.Name) w2 with ⟨cs, r, wd⟩
  rw [hdd] at hd
  simp only at hd
  subst hd
  simp only [matching, List.enum] at hdd
  simp only [herr] at hsave
  rcases hsv : e.datastore.SaveEvent
    { ev with StartedAt := some w1.now, Error := some err } wd with ⟨r2, w3⟩
  cases r2 with
  | none =>
    refine ⟨none, w3, [], ?_, rfl, rfl, rfl, rfl, rfl⟩
    simp [EventSystem.onPublish, hget, herr, hsave, handlerLoop_eq_loopSpec, loopSpec, hdd, hsv]
  | some err2 =>
    refine ⟨some err2, w3, e.log ("Failed to save event; " ++ err2), ?_, by simp, by simp,
      by simp, by simp, by simp⟩
    simp [EventSystem.onPublish, hget, herr, hsave, handlerLoop_eq_loopSpec, loopSpec, hdd, hsv]

theorem onPublish_handlers_ok {S P : Type} (e : EventSystem S P) (w w1 w2 : World S)
    (ev : Event P)
    (hget : e.datastore.GetEvent w = ((some ev, none), w1)) (herr : ev.Error = none)
    (hsave : e.datastore.SaveEvent { ev with StartedAt := some w1.now } w1 = (none, w2))
    (hd : (dispatch ev.Payload (matching e.handlers ev.Name) w2).2.1 = none) :
    ∃ res w4 tail,
      e.onPublish w =
        ⟨some (), w4,
          [Action.get (some ev) none, Action.save { ev with StartedAt := some w1.now } none]
            ++ (dispatch ev.Payload (matching e.handlers ev.Name) w2).1.map callAction
            ++ [Action.save
                { ev with
                  StartedAt := some w1.now
                  FinishedAt :=
                    some (dispatch ev.Payload (matching e.handlers ev.Name) w2).2.2.now } res]
            ++ tail⟩ ∧
      saves tail = [] ∧ calls tail = [] ∧ gets tail = 0 ∧ spawns tail = 0 ∧
        tail.filter isSaveOrCall = [] := by
  rcases hdd : dispatch ev.Payload (matching e.handlers ev.Name) w2 with ⟨cs, r, wd⟩
  rw [hdd] at hd
  simp only at hd
  subst hd
  simp only [matching, List.enum] at hdd
  simp only [herr] at hsave
  rcases hsv : e.datastore.SaveEvent
    { ev with StartedAt := some w1.now, FinishedAt := some wd.now } wd with ⟨r2, w4⟩
  simp only [herr] at hsv
  cases r2 with
  | none =>
    refine ⟨none, w4, [], ?_, rfl, rfl, rfl, rfl, rfl⟩
    simp [EventSystem.onPublish, hget, herr, hsave, handlerLoop_eq_loopSpec, loopSpec, hdd, hsv]
  | some err2 =>
    refine ⟨some err2, w4, e.log ("Failed to save event; " ++ err2), ?_, by simp, by simp,
      by simp, by simp, by simp⟩
    simp [EventSystem.onPublish, hget, herr, hsave, handlerLoop_eq_loopSpec, loopSpec, hdd, hsv]

/-! ## Processing step -/

/-- C3: when the candidate carries no error, the started-save succeeds and
every handler bound to the record's name succeeds (also when none is bound),
the last record the step passes to `SaveEvent` has `FinishedAt` equal to the
time read after the last handler returned, and `Error` absent. -/
theorem C3_all_succeed_marks_finished {S P : Type} (e : EventSystem S P)
    (w w1 w2 : World S) (ev : Event P)
    (hget : e.datastore.GetEvent w = ((some ev, none), w1))
    (herr : ev.Error = none)
    (hsave : e.datastore.SaveEvent { ev with StartedAt := some w1.now } w1 = (none, w2))
    (hok : (dispatch ev.Payload (matching e.handlers ev.Name) w2).2.1 = none) :
    (saves (e.onPublish w).trace).getLast? =
      some { ev with
        StartedAt := some w1.now
        FinishedAt := some (dispatch ev.Payload (matching e.handlers ev.Name) w2).2.2.now
        Error := none } := by
  obtain ⟨res, w4, tail, heq, hs, -, -, -, -⟩ := onPublish_handlers_ok e w w1 w2 ev hget herr hsave hok
  rw [heq]
  simp [saves, hs, herr]

/-- Instance on `sysOk`: the record is saved last with `FinishedAt` set. -/
theorem C3_all_succeed_marks_finished_witness :
    (saves (sysOk.onPublish ⟨5, some orderCreated⟩).trace).getLast? =
      some { orderCreated with StartedAt := some 6, FinishedAt := some 9 } :=
  C3_all_succeed_marks_finished sysOk ⟨5, some orderCreated⟩ ⟨6, some orderCreated⟩
    ⟨7, some { orderCreated with StartedAt := some 6 }⟩ orderCreated rfl rfl rfl (by decide)

/-- C4: when the candidate carries no error, the started-save succeeds and the
first bound handler to fail returns `err`, the step passes two records to
`SaveEvent`: the started record, and last the record with `Error = err`; no
record it saves has a `FinishedAt` other than the one fetched. -/
theorem C4_handler_failure_saves_error {S P : Type} (e : EventSystem S P)
    (w w1 w2 : World S) (ev : Event P) (err : Err)
    (hget : e.datastore.GetEvent w = ((some ev, none), w1))
    (herr : ev.Error = none)
    (hsave : e.datastore.SaveEvent { ev with StartedAt := some w1.now } w1 = (none, w2))
    (hfail : (dispatch ev.Payload (matching e.handlers ev.Name) w2).2.1 = some err) :
    saves (e.onPublish w).trace =
        [{ ev with StartedAt := some w1.now },
         { ev with StartedAt := some w1.now, Error := some err }] ∧
      (saves (e.onPublish w).trace).getLast? =
        some { ev with StartedAt := some w1.now, Error := some err } ∧
      ∀ r ∈ saves (e.onPublish w).trace, r.FinishedAt = ev.FinishedAt := by
  obtain ⟨res, w3, tail, heq, hs, -, -, -, -⟩ :=
    onPublish_handler_failed e w w1 w2 ev err hget herr hsave hfail
  rw [heq]
  simp [saves, hs]

/-- Instance on `sysFail`: the record is saved last with the error of the
failing handler and `FinishedAt` absent. -/
theorem C4_handler_failure_saves_error_witness :
    saves (sysFail.onPublish ⟨5, some orderCreated⟩).trace =
        [{ orderCreated with StartedAt := some 6 },
         { orderCreated with StartedAt := some 6, Error := some "insufficient stock" }] ∧
      (saves (sysFail.onPublish ⟨5, some orderCreated⟩).trace).getLast? =
        some { orderCreated with StartedAt := some 6, Error := some "insufficient stock" } ∧
      ∀ r ∈ saves (sysFail.onPublish ⟨5, some orderCreated⟩).trace, r.FinishedAt = none :=
  C4_handler_failure_saves_error sysFail ⟨5, some orderCreated⟩ ⟨6, some orderCreated⟩
    ⟨7, some { orderCreated with StartedAt := some 6 }⟩ orderCreated "insufficient stock"
    rfl rfl rfl (by decide)

/-- C5: if a handler invoked by the step returns an error, no handler at a
later position of the registry is invoked in that step, and the step makes
exactly one `GetEvent` call. -/
theorem C5_failure_stops_the_step {S P : Type} (e : EventSystem S P) (w : World S)
    (i : Nat) (q : P) (err : Err)
    (hfail : (i, q, some err) ∈ calls (e.onPublish w).trace) :
    (∀ c ∈ calls (e.onPublish w).trace, c.1 ≤ i) ∧ gets (e.onPublish w).trace = 1 := by
  rcases hget : e.datastore.GetEvent w with ⟨⟨cand, ferr⟩, w1⟩
  cases ferr with
  | some fe =>
    rw [onPublish_get_failed e w w1 cand fe hget] at hfail
    simp [calls] at hfail
  | none =>
    cases cand with
    | none =>
      rw [onPublish_no_event e w w1 hget] at hfail
      simp [calls] at hfail
    | some ev =>
      cases herr : ev.Error with
      | some x =>
        rw [onPublish_blocked e w w1 ev x hget herr] at hfail
        simp [calls] at hfail
      | none =>
        rcases hsave : e.datastore.SaveEvent { ev with StartedAt := some w1.now } w1
          with ⟨sr, w2⟩
        cases sr with
        | some se =>
          rw [onPublish_start_failed e w w1 w2 ev se hget herr hsave] at hfail
          simp [calls] at hfail
        | none =>
          have hsorted := matching_sorted e.handlers ev.Name
          cases hd : (dispatch ev.Payload (matching e.handlers ev.Name) w2).2.1 with
          | none =>
            obtain ⟨res, w4, tail, heq, -, hc, hg, -, -⟩ :=
              onPublish_handlers_ok e w w1 w2 ev hget herr hsave hd
            have hcalls : calls (e.onPublish w).trace =
                (dispatch ev.Payload (matching e.handlers ev.Name) w2).1 := by
              rw [heq]; simp [calls, hc]
            have hgets : gets (e.onPublish w).trace = 1 := by
              rw [heq]; simp [gets, hg]
            rw [hcalls] at hfail ⊢
            exact ⟨dispatch_failure_last _ _ hsorted w2 i q err hfail, hgets⟩
          | some de =>
            obtain ⟨res, w3, tail, heq, -, hc, hg, -, -⟩ :=
              onPublish_handler_failed e w w1 w2 ev de hget herr hsave hd
            have hcalls : calls (e.onPublish w).trace =
                (dispatch ev.Payload (matching e.handlers ev.Name) w2).1 := by
              rw [heq]; simp [calls, hc]
            have hgets : gets (e.onPublish w).trace = 1 := by
              rw [heq]; simp [gets, hg]
            rw [hcalls] at hfail ⊢
            exact ⟨dispatch_failure_last _ _ hsorted w2 i q err hfail, hgets⟩

/-- Instance on `sysFail`: the handler at position 2 fails, the one at
position 3 is not invoked. -/
theorem C5_failure_stops_the_step_witness :
    (2, 1, some "insufficient stock") ∈ calls (sysFail.onPublish ⟨5, some orderCreated⟩).trace ∧
      (∀ c ∈ calls (sysFail.onPublish ⟨5, some orderCreated⟩).trace, c.1 ≤ 2) ∧
      gets (sysFail.onPublish ⟨5, some orderCreated⟩).trace = 1 :=
  ⟨by decide,
    C5_failure_stops_the_step sysFail ⟨5, some orderCreated⟩ 2 1 "insufficient stock"
      (by decide)⟩

/-- C6: when the candidate carries no error, the started-save succeeds and all
bound handlers succeed, the handler invocations of the step are exactly the
positions of the registry whose `Event` equals the record's `Name`, in
registration order, each once, with the record's `Payload` as argument. -/
theorem C6_invocations_are_the_bound_handlers {S P : Type} (e : EventSystem S P)
    (w w1 w2 : World S) (ev : Event P)
    (hget : e.datastore.GetEvent w = ((some ev, none), w1))
    (herr : ev.Error = none)
    (hsave : e.datastore.SaveEvent { ev with StartedAt := some w1.now } w1 = (none, w2))
    (hok : (dispatch ev.Payload (matching e.handlers ev.Name) w2).2.1 = none) :
    calls (e.onPublish w).trace =
      (e.handlers.enum.filter (fun ih => decide (ih.2.Event = ev.Name))).map
        (fun ih => (ih.1, ev.Payload, none)) := by
  obtain ⟨res, w4, tail, heq, -, hc, -, -, -⟩ :=
    onPublish_handlers_ok e w w1 w2 ev hget herr hsave hok
  have hcalls : calls (e.onPublish w).trace =
      (dispatch ev.Payload (matching e.handlers ev.Name) w2).1 := by
    rw [heq]; simp [calls, hc]
  rw [hcalls]
  exact dispatch_ok_calls _ _ w2 hok

/-- Instance on `sysOk`: positions 0 and 2 are invoked, position 1, bound
to another name, is not. -/
theorem C6_invocations_are_the_bound_handlers_witness :
    calls (sysOk.onPublish ⟨5, some orderCreated⟩).trace = [(0, 1, none), (2, 1, none)] :=
  C6_invocations_are_the_bound_handlers sysOk ⟨5, some orderCreated⟩ ⟨6, some orderCreated⟩
    ⟨7, some { orderCreated with StartedAt := some 6 }⟩ orderCreated rfl rfl rfl (by decide)

/-- C7: when the candidate that `GetEvent` returns carries an error, the step
invokes no handler and makes no `SaveEvent` call, and leaves the world as
`GetEvent` left it. -/
theorem C7_errored_candidate_untouched {S P : Type} (e : EventSystem S P) (w : World S)
    (ev : Event P)
    (hcand : (e.datastore.GetEvent w).1.1 = some ev) (herr : ev.Error ≠ none) :
    calls (e.onPublish w).trace = [] ∧ saves (e.onPublish w).trace = [] ∧
      (e.onPublish w).world = (e.datastore.GetEvent w).2 := by
  rcases hget : e.datastore.GetEvent w with ⟨⟨cand, ferr⟩, w1⟩
  rw [hget] at hcand
  simp only at hcand
  subst hcand
  cases ferr with
  | some fe =>
    rw [onPublish_get_failed e w w1 _ fe hget]
    simp [calls, saves]
  | none =>
    cases hx : ev.Error with
    | none => exact absurd hx herr
    | some x =>
      rw [onPublish_blocked e w w1 ev x hget hx]
      simp [calls, saves]

/-- Instance on `sysFail` with the errored record as candidate. -/
theorem C7_errored_candidate_untouched_witness :
    calls (sysFail.onPublish ⟨5, some orderFailed⟩).trace = [] ∧
      saves (sysFail.onPublish ⟨5, some orderFailed⟩).trace = [] ∧
      (sysFail.onPublish ⟨5, some orderFailed⟩).world = ⟨6, some orderFailed⟩ :=
  C7_errored_candidate_untouched sysFail ⟨5, some orderFailed⟩ orderFailed rfl (by decide)

/-- C8: on `sysFail` with the errored record as candidate, and a nil fetch
error, the step does not return: evaluating the argument of its log call
dereferences the nil fetch error, with logging enabled and with logging
disabled. -/
theorem C8_errored_candidate_panics :
    (sysFail.onPublish ⟨5, some orderFailed⟩).ret = none ∧
      (EventSystem.onPublish { sysFail with enableLog := false }
        ⟨5, some orderFailed⟩).ret = none :=
  ⟨rfl, rfl⟩

/-! ## Restart -/

theorem restart_get_failed {S P : Type} (e : EventSystem S P) (w w1 : World S)
    (cand : Option (Event P)) (err : Err)
    (hget : e.datastore.GetEvent w = ((cand, some err), w1)) :
    e.Restart w =
      ⟨some (), w1,
        e.log ("EventSystem.Restart") ++ [Action.get cand (some err)]
          ++ e.log ("Failed to get event; " ++ err)⟩ := by
  simp only [EventSystem.Restart, hget]

theorem restart_no_event {S P : Type} (e : EventSystem S P) (w w1 : World S)
    (hget : e.datastore.GetEvent w = ((none, none), w1)) :
    e.Restart w =
      ⟨some (), w1, e.log ("EventSystem.Restart") ++ [Action.get none none, Action.spawn]⟩ := by
  simp only [EventSystem.Restart, hget]

theorem restart_not_blocked {S P : Type} (e : EventSystem S P) (w w1 : World S)
    (ev : Event P)
    (hget : e.datastore.GetEvent w = ((some ev, none), w1)) (herr : ev.Error = none) :
    e.Restart w =
      ⟨some (), w1,
        e.log ("EventSystem.Restart") ++ [Action.get (some ev) none, Action.spawn]⟩ := by
  simp only [EventSystem.Restart, hget, herr]

theorem restart_save_failed {S P : Type} (e : EventSystem S P) (w w1 w2 : World S)
    (ev : Event P) (x err : Err)
    (hget : e.datastore.GetEvent w = ((some ev, none), w1)) (herr : ev.Error = some x)
    (hsave : e.datastore.SaveEvent { ev with Error := none } w1 = (some err, w2)) :
    e.Restart w =
      ⟨some (), w2,
        e.log ("EventSystem.Restart") ++ [Action.get (some ev) none]
          ++ e.log ("Try to restart failed event " ++ ev.Name)
          ++ [Action.save { ev with Error := none } (some err)]
          ++ e.log ("Failed to save event; " ++ err)⟩ := by
  simp only [EventSystem.Restart, hget, herr, hsave]

theorem restart_cleared {S P : Type} (e : EventSystem S P) (w w1 w2 : World S)
    (ev : Event P) (x : Err)
    (hget : e.datastore.GetEvent w = ((some ev, none), w1)) (herr : ev.Error = some x)
    (hsave : e.datastore.SaveEvent { ev with Error := none } w1 = (none, w2)) :
    e.Restart w =
      ⟨some (), w2,
        e.log ("EventSystem.Restart") ++ [Action.get (some ev) none]
          ++ e.log ("Try to restart failed event " ++ ev.Name)
          ++ [Action.save { ev with Error := none } none, Action.spawn]⟩ := by
  simp only [EventSystem.Restart, hget, herr, hsave]

/-- C9: when `GetEvent` succeeds and `SaveEvent` succeeds, `Restart` passes to
`SaveEvent` exactly the candidate with `Error` cleared when the candidate is
present and carries an error, and makes no `SaveEvent` call otherwise; in both
cases it starts exactly one processing attempt, as its last action. -/
theorem C9_restart_clears_error_and_triggers {S P : Type} (e : EventSystem S P)
    (w w1 : World S) (cand : Option (Event P))
    (hget : e.datastore.GetEvent w = ((cand, none), w1))
    (hsave : ∀ ev, (e.datastore.SaveEvent ev w1).1 = none) :
    saves (e.Restart w).trace =
        (match cand with
          | some ev => if ev.Error ≠ none then [{ ev with Error := none }] else []
          | none => []) ∧
      spawns (e.Restart w).trace = 1 ∧
      (e.Restart w).trace.getLast? = some Action.spawn := by
  cases cand with
  | none =>
    rw [restart_no_event e w w1 hget]
    simp [saves, spawns]
  | some ev =>
    cases herr : ev.Error with
    | none =>
      rw [restart_not_blocked e w w1 ev hget herr]
      simp [saves, spawns, herr]
    | some x =>
      rcases hsv : e.datastore.SaveEvent { ev with Error := none } w1 with ⟨sr, w2⟩
      have := hsave { ev with Error := none }
      rw [hsv] at this
      simp only at this
      subst this
      rw [restart_cleared e w w1 w2 ev x hget herr hsv]
      refine ⟨by simp [saves, herr], by simp [spawns], ?_⟩
      have hl : ∀ l : List (Action P),
          l ++ [Action.save { ev with Error := none } none, Action.spawn] =
            (l ++ [Action.save { ev with Error := none } none]) ++ [Action.spawn] := by
        intro l; simp
      simp only [hl, List.getLast?_concat]

/-- Instance on `sysFail` with the errored record as candidate. -/
theorem C9_restart_clears_error_and_triggers_witness :
    saves (sysFail.Restart ⟨5, some orderFailed⟩).trace =
        [{ orderFailed with Error := none }] ∧
      spawns (sysFail.Restart ⟨5, some orderFailed⟩).trace = 1 ∧
      (sysFail.Restart ⟨5, some orderFailed⟩).trace.getLast? = some Action.spawn :=
  C9_restart_clears_error_and_triggers sysFail ⟨5, some orderFailed⟩ ⟨6, some orderFailed⟩
    (some orderFailed) rfl (fun _ => rfl)

/-! ## Order of the datastore writes and the handler invocations -/

/-- The datastore writes and handler invocations of a step, in order: none; or
the started-save alone, failed; or the started-save, succeeded, then the
invocations, then one last save of the started record with `FinishedAt` or
`Error` written. -/
theorem onPublish_skeleton {S P : Type} (e : EventSystem S P) (w : World S) :
    (e.onPublish w).trace.filter isSaveOrCall = [] ∨
      ∃ ev, (e.datastore.GetEvent w).1.1 = some ev ∧ ev.Error = none ∧
        ((∃ err, (e.onPublish w).trace.filter isSaveOrCall =
            [Action.save { ev with StartedAt := some (e.datastore.GetEvent w).2.now }
              (some err)]) ∨
          ∃ (cs : List (Nat × P × Option Err)) (last : Event P) (res : Option Err),
            (e.onPublish w).trace.filter isSaveOrCall =
              Action.save { ev with StartedAt := some (e.datastore.GetEvent w).2.now } none
                :: (cs.map callAction ++ [Action.save last res]) ∧
            last.StartedAt = some (e.datastore.GetEvent w).2.now) := by
  rcases hget : e.datastore.GetEvent w with ⟨⟨cand, ferr⟩, w1⟩
  cases ferr with
  | some fe =>
    rw [onPublish_get_failed e w w1 cand fe hget]
    simp [isSaveOrCall]
  | none =>
    cases cand with
    | none =>
      rw [onPublish_no_event e w w1 hget]
      simp [isSaveOrCall]
    | some ev =>
      cases herr : ev.Error with
      | some x =>
        rw [onPublish_blocked e w w1 ev x hget herr]
        simp [isSaveOrCall]
      | none =>
        right
        refine ⟨ev, rfl, herr, ?_⟩
        rcases hsave : e.datastore.SaveEvent { ev with StartedAt := some w1.now } w1
          with ⟨sr, w2⟩
        cases sr with
        | some se =>
          left
          rw [onPublish_start_failed e w w1 w2 ev se hget herr hsave]
          exact ⟨se, by simp [isSaveOrCall]⟩
        | none =>
          right
          cases hd : (dispatch ev.Payload (matching e.handlers ev.Name) w2).2.1 with
          | none =>
            obtain ⟨res, w4, tail, heq, -, -, -, -, ht⟩ :=
              onPublish_handlers_ok e w w1 w2 ev hget herr hsave hd
            rw [heq]
            refine ⟨(dispatch ev.Payload (matching e.handlers ev.Name) w2).1,
              { ev with
                StartedAt := some w1.now
                FinishedAt :=
                  some (dispatch ev.Payload (matching e.handlers ev.Name) w2).2.2.now },
              res, ?_, ?_⟩
            · simp only [List.filter_append, ht, filter_isSaveOrCall_map_callAction]
              simp [isSaveOrCall]
            · rfl
          | some de =>
            obtain ⟨res, w3, tail, heq, -, -, -, -, ht⟩ :=
              onPublish_handler_failed e w w1 w2 ev de hget herr hsave hd
            rw [heq]
            refine ⟨(dispatch ev.Payload (matching e.handlers ev.Name) w2).1,
              { ev with StartedAt := some w1.now, Error := some de }, res, ?_, ?_⟩
            · simp only [List.filter_append, ht, filter_isSaveOrCall_map_callAction,
                filter_isSaveOrCall_log]
              simp [isSaveOrCall]
            · rfl

theorem not_save_mem_map_callAction {P : Type} (cs : List (Nat × P × Option Err))
    (r : Event P) (res : Option Err) : Action.save r res ∉ cs.map callAction := by
  simp [callAction]

/-- C10: in every step, a handler invocation is preceded by the successful
`SaveEvent` call on the fetched record with `StartedAt` set to the time read
after the fetch; the first `SaveEvent` call of the step is on that record, and
after any later `SaveEvent` call (the one that writes `FinishedAt` or the
handler error) no handler is invoked; every record the step saves has
`StartedAt` set, those with `FinishedAt` set included. -/
theorem C10_started_before_handlers_result_after {S P : Type} (e : EventSystem S P)
    (w : World S) :
    (∀ pre i q r post, (e.onPublish w).trace = pre ++ Action.call i q r :: post →
        ∃ ev, (e.datastore.GetEvent w).1.1 = some ev ∧
          Action.save { ev with StartedAt := some (e.datastore.GetEvent w).2.now } none
            ∈ pre) ∧
      (∀ pre rcd res post, (e.onPublish w).trace = pre ++ Action.save rcd res :: post →
        saves pre = [] →
        ∃ ev, (e.datastore.GetEvent w).1.1 = some ev ∧ ev.Error = none ∧
          rcd = { ev with StartedAt := some (e.datastore.GetEvent w).2.now }) ∧
      (∀ pre rcd res post, (e.onPublish w).trace = pre ++ Action.save rcd res :: post →
        saves pre ≠ [] → calls post = []) ∧
      (∀ rcd ∈ saves (e.onPublish w).trace,
        rcd.StartedAt = some (e.datastore.GetEvent w).2.now ∧
          (rcd.FinishedAt ≠ none → rcd.StartedAt ≠ none)) := by
  have hsk := onPublish_skeleton e w
  refine ⟨?_, ?_, ?_, ?_⟩
  · intro pre i q r post htr
    rw [htr] at hsk
    simp only [List.filter_append, List.filter_cons, isSaveOrCall, if_true] at hsk
    rcases hsk with h | ⟨ev, hev, -, ⟨err, h⟩ | ⟨cs, last, res, h, -⟩⟩
    · simp at h
    · cases hp : pre.filter isSaveOrCall with
      | nil => rw [hp] at h; simp at h
      | cons a m => rw [hp] at h; simp at h
    · cases hp : pre.filter isSaveOrCall with
      | nil => rw [hp] at h; simp at h
      | cons a m =>
        rw [hp] at h
        simp only [List.cons_append, List.cons.injEq] at h
        refine ⟨ev, hev, ?_⟩
        have hmem : a ∈ pre.filter isSaveOrCall := by rw [hp]; simp
        rw [h.1] at hmem
        exact (List.mem_filter.mp hmem).1
  · intro pre rcd res post htr hpre
    rw [htr] at hsk
    simp only [List.filter_append, List.filter_cons, isSaveOrCall, if_true] at hsk
    have hfp := saves_filter_isSaveOrCall pre
    rw [hpre] at hfp
    rcases hsk with h | ⟨ev, hev, herr, ⟨err, h⟩ | ⟨cs, last, res2, h, -⟩⟩
    · simp at h
    · cases hp : pre.filter isSaveOrCall with
      | nil =>
        rw [hp] at h
        simp only [List.nil_append, List.cons.injEq, Action.save.injEq] at h
        exact ⟨ev, hev, herr, h.1.1⟩
      | cons a m => rw [hp] at h; simp at h
    · cases hp : pre.filter isSaveOrCall with
      | nil =>
        rw [hp] at h
        simp only [List.nil_append, List.cons.injEq, Action.save.injEq] at h
        exact ⟨ev, hev, herr, h.1.1⟩
      | cons a m =>
        rw [hp] at h hfp
        simp only [List.cons_append, List.cons.injEq] at h
        rw [h.1] at hfp
        simp [saves] at hfp
  · intro pre rcd res post htr hpre
    rw [htr] at hsk
    simp only [List.filter_append, List.filter_cons, isSaveOrCall, if_true] at hsk
    have hfp := saves_filter_isSaveOrCall pre
    rw [← calls_filter_isSaveOrCall post]
    rcases hsk with h | ⟨ev, hev, -, ⟨err, h⟩ | ⟨cs, last, res2, h, -⟩⟩
    · simp at h
    · cases hp : pre.filter isSaveOrCall with
      | nil => rw [hp] at hfp; exact absurd hfp.symm hpre
      | cons a m => rw [hp] at h; simp at h
    · cases hp : pre.filter isSaveOrCall with
      | nil => rw [hp] at hfp; exact absurd hfp.symm hpre
      | cons a m =>
        rw [hp] at h
        simp only [List.cons_append, List.cons.injEq] at h
        rcases List.append_eq_append_iff.mp h.2 with ⟨a1, h1, h2⟩ | ⟨c1, h1, h2⟩
        · cases a1 with
          | nil =>
            simp only [List.nil_append, List.cons.injEq] at h2
            rw [h2.2]; rfl
          | cons y a2 =>
            simp only [List.cons_append, List.cons.injEq] at h2
            have : Action.save rcd res ∈ cs.map callAction := by
              rw [h1, ← h2.1]; simp
            exact absurd this (not_save_mem_map_callAction cs rcd res)
        · cases c1 with
          | nil =>
            simp only [List.nil_append, List.cons.injEq] at h2
            rw [← h2.2]; rfl
          | cons y c2 =>
            simp at h2
  · intro rcd hr
    rw [← saves_filter_isSaveOrCall] at hr
    have hst : rcd.StartedAt = some (e.datastore.GetEvent w).2.now := by
      rcases hsk with h | ⟨ev, hev, -, ⟨err, h⟩ | ⟨cs, last, res2, h, hl⟩⟩
      · rw [h] at hr; simp [saves] at hr
      · rw [h] at hr
        simp only [saves, List.mem_singleton] at hr
        rw [hr]
      · rw [h] at hr
        simp only [saves, saves_append, saves_map_callAction, List.nil_append,
          List.mem_cons, List.mem_singleton, List.not_mem_nil, or_false] at hr
        rcases hr with hr | hr
        · rw [hr]
        · rw [hr]; exact hl
    exact ⟨hst, fun _ => by rw [hst]; simp⟩

/-- Instance on `sysFail`: the first handler invocation comes after the
successful started-save. -/
theorem C10_started_before_handlers_result_after_witness :
    (sysFail.onPublish ⟨5, some orderCreated⟩).trace =
        [Action.get (some orderCreated) none,
          Action.save { orderCreated with StartedAt := some 6 } none]
          ++ Action.call 0 1 none ::
            [Action.call 2 1 (some "insufficient stock"),
              Action.log ("Failed to handle event; insufficient stock"),
              Action.save
                { orderCreated with StartedAt := some 6, Error := some "insufficient stock" }
                none] ∧
      ∃ ev, (sysFail.datastore.GetEvent ⟨5, some orderCreated⟩).1.1 = some ev ∧
        Action.save
            { ev with
              StartedAt := some (sysFail.datastore.GetEvent ⟨5, some orderCreated⟩).2.now }
            none
          ∈ [Action.get (some orderCreated) none,
              Action.save { orderCreated with StartedAt := some 6 } none] :=
  ⟨rfl,
    (C10_started_before_handlers_result_after sysFail ⟨5, some orderCreated⟩).1
      _ 0 1 none _ rfl⟩

/-! ## Who clears an error -/

/-- C11: `Register` and `Publish` fetch no record, `Register` saves none and
`Publish` saves only its fresh record with empty `ID`; and when the candidate
that `onPublish` fetches carries an error, `onPublish` makes no `SaveEvent`
call, so none of the three writes a record with `Error` absent for a record
fetched with `Error` present. -/
theorem C11_only_restart_clears_error {S P : Type} (e : EventSystem S P)
    (handler : EventHandler S P) (name : String) (payload : P) (w : World S) (ev : Event P)
    (hcand : (e.datastore.GetEvent w).1.1 = some ev) (herr : ev.Error ≠ none) :
    (saves (e.Register handler).2 = [] ∧ gets (e.Register handler).2 = 0) ∧
      (gets (e.Publish name payload w).trace = 0 ∧
        ∀ r ∈ saves (e.Publish name payload w).trace, r.ID = "") ∧
      saves (e.onPublish w).trace = [] ∧
      ∀ r ∈ saves (e.onPublish w).trace, r.Error ≠ none := by
  have h7 : saves (e.onPublish w).trace = [] := by
    rcases hget : e.datastore.GetEvent w with ⟨⟨cand, ferr⟩, w1⟩
    rw [hget] at hcand
    simp only at hcand
    subst hcand
    cases ferr with
    | some fe =>
      rw [onPublish_get_failed e w w1 _ fe hget]
      simp [saves]
    | none =>
      cases hx : ev.Error with
      | none => exact absurd hx herr
      | some x =>
        rw [onPublish_blocked e w w1 ev x hget hx]
        simp [saves]
  refine ⟨⟨by simp [EventSystem.Register], by simp [EventSystem.Register]⟩, ⟨?_, ?_⟩, h7, ?_⟩
  · rcases hs : e.datastore.SaveEvent (newEvent name payload w) w with ⟨o, w1⟩
    cases o with
    | none => rw [publish_save_ok e name payload w w1 hs]; simp [gets]
    | some err => rw [publish_save_failed e name payload w w1 err hs]; simp [gets]
  · rcases hs : e.datastore.SaveEvent (newEvent name payload w) w with ⟨o, w1⟩
    cases o with
    | none =>
      rw [publish_save_ok e name payload w w1 hs]
      intro r hr
      simp only [saves_append, saves_log, saves, List.nil_append, List.mem_singleton] at hr
      rw [hr]; rfl
    | some err =>
      rw [publish_save_failed e name payload w w1 err hs]
      intro r hr
      simp only [saves_append, saves_log, saves, List.nil_append, List.mem_singleton] at hr
      rw [hr]; rfl
  · rw [h7]
    intro r hr
    simp at hr

/-- Instance on `sysFail` with the errored record as candidate. -/
theorem C11_only_restart_clears_error_witness :
    (saves (sysFail.Register (okHandler "order.paid")).2 = [] ∧
        gets (sysFail.Register (okHandler "order.paid")).2 = 0) ∧
      (gets (sysFail.Publish "order.paid" 7 ⟨5, some orderFailed⟩).trace = 0 ∧
        ∀ r ∈ saves (sysFail.Publish "order.paid" 7 ⟨5, some orderFailed⟩).trace, r.ID = "") ∧
      saves (sysFail.onPublish ⟨5, some orderFailed⟩).trace = [] ∧
      ∀ r ∈ saves (sysFail.onPublish ⟨5, some orderFailed⟩).trace, r.Error ≠ none :=
  C11_only_restart_clears_error sysFail (okHandler "order.paid") "order.paid" 7
    ⟨5, some orderFailed⟩ orderFailed rfl (by decide)

/-! ## Register -/

/-- C12: `Register` returns (it is a total function) and leaves the handler
list equal to the old one with the new binding appended at the end, whatever
names are already registered; the datastore and the logging flag are
unchanged. -/
theorem C12_register_appends {S P : Type} (e : EventSystem S P)
    (handler : EventHandler S P) :
    (e.Register handler).1.handlers = e.handlers ++ [handler] ∧
      (e.Register handler).1.handlers.take e.handlers.length = e.handlers ∧
      (e.Register handler).1.handlers.length = e.handlers.length + 1 ∧
      (e.Register handler).1.handlers.getLast? = some handler ∧
      (e.Register handler).1.datastore = e.datastore ∧
      (e.Register handler).1.enableLog = e.enableLog := by
  simp [EventSystem.Register]

/-! ## Records that the processing step and `Restart` save -/

theorem mem_saves_of_save_mem {P : Type} (tr : List (Action P)) (r : Event P)
    (res : Option Err) (h : Action.save r res ∈ tr) : r ∈ saves tr := by
  induction tr with
  | nil => simp at h
  | cons x t ih =>
    rcases List.mem_cons.mp h with hx | ht
    · subst hx; simp [saves]
    · have := ih ht
      cases x <;> simp [saves, this]

/-- Every record `onPublish` passes to `SaveEvent` is the fetched candidate,
which carries no error, with `StartedAt` set to the time read after the fetch
and at most one of `Error` and `FinishedAt` written. -/
theorem onPublish_saves_cases {S P : Type} (e : EventSystem S P) (w : World S)
    (r : Event P) (hr : r ∈ saves (e.onPublish w).trace) :
    ∃ ev, (e.datastore.GetEvent w).1.1 = some ev ∧ ev.Error = none ∧
      (r = { ev with StartedAt := some (e.datastore.GetEvent w).2.now } ∨
        (∃ err, r = { ev with
            StartedAt := some (e.datastore.GetEvent w).2.now, Error := some err }) ∨
        ∃ t, r = { ev with
            StartedAt := some (e.datastore.GetEvent w).2.now, FinishedAt := some t }) := by
  rcases hget : e.datastore.GetEvent w with ⟨⟨cand, ferr⟩, w1⟩
  cases ferr with
  | some fe =>
    rw [onPublish_get_failed e w w1 cand fe hget] at hr
    simp [saves] at hr
  | none =>
    cases cand with
    | none =>
      rw [onPublish_no_event e w w1 hget] at hr
      simp [saves] at hr
    | some ev =>
      cases herr : ev.Error with
      | some x =>
        rw [onPublish_blocked e w w1 ev x hget herr] at hr
        simp [saves] at hr
      | none =>
        refine ⟨ev, rfl, herr, ?_⟩
        rcases hsave : e.datastore.SaveEvent { ev with StartedAt := some w1.now } w1
          with ⟨sr, w2⟩
        cases sr with
        | some se =>
          have hsv : saves (e.onPublish w).trace = [{ ev with StartedAt := some w1.now }] := by
            rw [onPublish_start_failed e w w1 w2 ev se hget herr hsave]
            simp [saves]
          rw [hsv] at hr
          exact Or.inl (List.mem_singleton.mp hr)
        | none =>
          cases hd : (dispatch ev.Payload (matching e.handlers ev.Name) w2).2.1 with
          | none =>
            obtain ⟨res, w4, tail, heq, hs, -, -, -, -⟩ :=
              onPublish_handlers_ok e w w1 w2 ev hget herr hsave hd
            have hsv : saves (e.onPublish w).trace =
                [{ ev with StartedAt := some w1.now },
                 { ev with
                   StartedAt := some w1.now
                   FinishedAt :=
                     some (dispatch ev.Payload (matching e.handlers ev.Name) w2).2.2.now }] := by
              rw [heq]
              simp [saves, hs]
            rw [hsv] at hr
            simp only [List.mem_cons, List.mem_singleton, List.not_mem_nil, or_false] at hr
            rcases hr with hr | hr
            · exact Or.inl hr
            · exact Or.inr (Or.inr ⟨_, hr⟩)
          | some de =>
            obtain ⟨res, w3, tail, heq, hs, -, -, -, -⟩ :=
              onPublish_handler_failed e w w1 w2 ev de hget herr hsave hd
            have hsv : saves (e.onPublish w).trace =
                [{ ev with StartedAt := some w1.now },
                 { ev with StartedAt := some w1.now, Error := some de }] := by
              rw [heq]
              simp [saves, hs]
            rw [hsv] at hr
            simp only [List.mem_cons, List.mem_singleton, List.not_mem_nil, or_false] at hr
            rcases hr with hr | hr
            · exact Or.inl hr
            · exact Or.inr (Or.inl ⟨_, hr⟩)

/-- Every record `Restart` passes to `SaveEvent` is the fetched candidate, which
carries an error, with `Error` cleared. -/
theorem restart_saves_cases {S P : Type} (e : EventSystem S P) (w : World S)
    (r : Event P) (hr : r ∈ saves (e.Restart w).trace) :
    ∃ ev, (e.datastore.GetEvent w).1.1 = some ev ∧ ev.Error ≠ none ∧
      r = { ev with Error := none } := by
  rcases hget : e.datastore.GetEvent w with ⟨⟨cand, ferr⟩, w1⟩
  cases ferr with
  | some fe =>
    rw [restart_get_failed e w w1 cand fe hget] at hr
    simp [saves] at hr
  | none =>
    cases cand with
    | none =>
      rw [restart_no_event e w w1 hget] at hr
      simp [saves] at hr
    | some ev =>
      cases herr : ev.Error with
      | none =>
        rw [restart_not_blocked e w w1 ev hget herr] at hr
        simp [saves] at hr
      | some x =>
        refine ⟨ev, rfl, by simp [herr], ?_⟩
        rcases hsv : e.datastore.SaveEvent { ev with Error := none } w1 with ⟨sr, w2⟩
        cases sr with
        | some se =>
          rw [restart_save_failed e w w1 w2 ev x se hget herr hsv] at hr
          simpa [saves] using hr
        | none =>
          rw [restart_cleared e w w1 w2 ev x hget herr hsv] at hr
          simpa [saves] using hr

/-! ## Lifecycle invariant -/

/-- C13: over a datastore that never gives a finished record as candidate,
every persisted state reachable from `Publish` through processing steps and
`Restart` calls is not started, started and pending, finished, or errored
(four cases that exclude one another by their definitions); none has both
`FinishedAt` and `Error` set. -/
theorem C13_persisted_states_are_the_four {S P : Type} (ds : Datastore S P)
    (hunfinished : ∀ w c, (ds.GetEvent w).1.1 = some c → c.FinishedAt = none)
    (r : Event P) (hr : Persisted ds r) :
    (r.notStarted ∨ r.pending ∨ r.finished ∨ r.errored) ∧
      ¬(r.FinishedAt ≠ none ∧ r.Error ≠ none) := by
  have key : r.notStarted ∨ r.pending ∨ r.finished ∨ r.errored := by
    induction hr with
    | publish e name payload w id hds hsaved =>
      left
      exact ⟨rfl, rfl, rfl⟩
    | step e w c r hds hc hcand hsaved ih =>
      have hfin : c.FinishedAt = none := hunfinished w c (hds ▸ hcand)
      obtain ⟨ev, hev, herr, hcases⟩ :=
        onPublish_saves_cases e w r (mem_saves_of_save_mem _ r none hsaved)
      rw [hcand] at hev
      cases hev
      rcases hcases with h | ⟨err, h⟩ | ⟨t, h⟩
      · right; left
        subst h
        exact ⟨by simp, hfin, herr⟩
      · right; right; right
        subst h
        exact ⟨by simp, hfin, by simp⟩
      · right; right; left
        subst h
        exact ⟨by simp, by simp, herr⟩
    | restart e w c r hds hc hcand hsaved ih =>
      have hfin : c.FinishedAt = none := hunfinished w c (hds ▸ hcand)
      obtain ⟨ev, hev, herr, h⟩ :=
        restart_saves_cases e w r (mem_saves_of_save_mem _ r none hsaved)
      rw [hcand] at hev
      cases hev
      subst h
      rcases ih with h1 | h1 | h1 | h1
      · exact absurd h1.2.2 herr
      · exact absurd h1.2.2 herr
      · exact absurd h1.2.2 herr
      · right; left
        exact ⟨h1.1, hfin, rfl⟩
  refine ⟨key, ?_⟩
  rintro ⟨hf, he⟩
  rcases key with h | h | h | h
  · exact he h.2.2
  · exact he h.2.2
  · exact he h.2.2
  · exact hf h.2.1

theorem pendingStore_unfinished (w : World (Option (Event Nat))) (c : Event Nat)
    (h : (pendingStore.GetEvent w).1.1 = some c) : c.FinishedAt = none := by
  simp only [pendingStore] at h
  cases hs : w.state with
  | none => rw [hs] at h; simp [Option.filter] at h
  | some r =>
    rw [hs] at h
    simp only [Option.filter] at h
    split at h
    · rename_i hp
      cases h
      simpa using hp
    · cases h

/-- Instance on `sysPending`: the record published, then processed with a
failing handler, is persisted in the errored state. -/
theorem C13_persisted_states_are_the_four_witness :
    Persisted pendingStore
        { orderCreated with StartedAt := some 6, Error := some "insufficient stock" } ∧
      ((Event.notStarted
            { orderCreated with StartedAt := some 6, Error := some "insufficient stock" } ∨
          Event.pending
            { orderCreated with StartedAt := some 6, Error := some "insufficient stock" } ∨
          Event.finished
            { orderCreated with StartedAt := some 6, Error := some "insufficient stock" } ∨
          Event.errored
            { orderCreated with StartedAt := some 6, Error := some "insufficient stock" }) ∧
        ¬((orderCreated.FinishedAt ≠ none) ∧ (some "insufficient stock" : Option Err) ≠ none)) :=
  have hP : Persisted pendingStore
      { orderCreated with StartedAt := some 6, Error := some "insufficient stock" } :=
    Persisted.step sysPending ⟨5, some orderCreated⟩ orderCreated _ rfl
      (Persisted.publish sysPending "order.created" 1 ⟨1, none⟩ "1" rfl (by decide))
      rfl (by decide)
  ⟨hP, C13_persisted_states_are_the_four pendingStore pendingStore_unfinished _ hP⟩

/-! ## After a failed datastore call -/

/-- The trace of a step starts with its only `GetEvent` call. -/
theorem onPublish_gets {S P : Type} (e : EventSystem S P) (w : World S) :
    ∃ rest, (e.onPublish w).trace =
        Action.get (e.datastore.GetEvent w).1.1 (e.datastore.GetEvent w).1.2 :: rest ∧
      gets rest = 0 := by
  rcases hget : e.datastore.GetEvent w with ⟨⟨cand, ferr⟩, w1⟩
  cases ferr with
  | some fe =>
    rw [onPublish_get_failed e w w1 cand fe hget]
    exact ⟨_, rfl, by simp⟩
  | none =>
    cases cand with
    | none =>
      rw [onPublish_no_event e w w1 hget]
      exact ⟨_, rfl, by simp⟩
    | some ev =>
      cases herr : ev.Error with
      | some x =>
        rw [onPublish_blocked e w w1 ev x hget herr]
        exact ⟨_, rfl, rfl⟩
      | none =>
        rcases hsave : e.datastore.SaveEvent { ev with StartedAt := some w1.now } w1
          with ⟨sr, w2⟩
        cases sr with
        | some se =>
          rw [onPublish_start_failed e w w1 w2 ev se hget herr hsave]
          exact ⟨_, rfl, by simp [gets]⟩
        | none =>
          cases hd : (dispatch ev.Payload (matching e.handlers ev.Name) w2).2.1 with
          | none =>
            obtain ⟨res, w4, tail, heq, -, -, hg, -, -⟩ :=
              onPublish_handlers_ok e w w1 w2 ev hget herr hsave hd
            rw [heq]
            exact ⟨_, rfl, by simp [gets, hg]⟩
          | some de =>
            obtain ⟨res, w3, tail, heq, -, -, hg, -, -⟩ :=
              onPublish_handler_failed e w w1 w2 ev de hget herr hsave hd
            rw [heq]
            exact ⟨_, rfl, by simp [gets, hg]⟩

theorem nothing_after_last_save {P : Type} (cs : List (Nat × P × Option Err))
    (last : Action P) (m fpost : List (Action P)) (r : Event P) (res : Option Err)
    (h : m ++ Action.save r res :: fpost = cs.map callAction ++ [last]) : fpost = [] := by
  rcases List.append_eq_append_iff.mp h with ⟨a1, h1, h2⟩ | ⟨c1, h1, h2⟩
  · cases a1 with
    | nil =>
      simp only [List.nil_append, List.cons.injEq] at h2
      exact h2.2
    | cons y a2 =>
      simp only [List.cons_append, List.cons.injEq] at h2
      have : Action.save r res ∈ cs.map callAction := by
        rw [h1, ← h2.1]; simp
      exact absurd this (not_save_mem_map_callAction cs r res)
  · cases c1 with
    | nil =>
      simp only [List.nil_append, List.cons.injEq] at h2
      exact h2.2.symm
    | cons y c2 => simp at h2

/-- C14: in every step, a failed or empty `GetEvent` is followed by no
`SaveEvent` call and no handler invocation; a failed started-save is the only
`SaveEvent` call and no handler is invoked; and after any failed `SaveEvent`
call the step makes no datastore call and invokes no handler. -/
theorem C14_step_stops_at_failure {S P : Type} (e : EventSystem S P) (w : World S) :
    (((e.datastore.GetEvent w).1.2 ≠ none ∨ (e.datastore.GetEvent w).1.1 = none) →
        saves (e.onPublish w).trace = [] ∧ calls (e.onPublish w).trace = [] ∧
          gets (e.onPublish w).trace = 1) ∧
      (∀ ev err, (e.datastore.GetEvent w).1 = (some ev, none) → ev.Error = none →
        (e.datastore.SaveEvent
            { ev with StartedAt := some (e.datastore.GetEvent w).2.now }
            (e.datastore.GetEvent w).2).1 = some err →
        saves (e.onPublish w).trace =
            [{ ev with StartedAt := some (e.datastore.GetEvent w).2.now }] ∧
          calls (e.onPublish w).trace = [] ∧ gets (e.onPublish w).trace = 1) ∧
      (∀ pre r err post, (e.onPublish w).trace = pre ++ Action.save r (some err) :: post →
        saves post = [] ∧ calls post = [] ∧ gets post = 0) := by
  refine ⟨?_, ?_, ?_⟩
  · intro h
    rcases hget : e.datastore.GetEvent w with ⟨⟨cand, ferr⟩, w1⟩
    rw [hget] at h
    cases ferr with
    | some fe =>
      rw [onPublish_get_failed e w w1 cand fe hget]
      simp [saves, calls, gets]
    | none =>
      cases cand with
      | none =>
        rw [onPublish_no_event e w w1 hget]
        simp [saves, calls, gets]
      | some ev => simp at h
  · intro ev err hget herr hsave
    rcases hg : e.datastore.GetEvent w with ⟨⟨cand, ferr⟩, w1⟩
    rw [hg] at hget hsave
    simp only [Prod.mk.injEq] at hget
    obtain ⟨hc, hf⟩ := hget
    subst hc hf
    rcases hsv : e.datastore.SaveEvent { ev with StartedAt := some w1.now } w1 with ⟨sr, w2⟩
    simp only at hsave
    rw [hsv] at hsave
    simp only at hsave
    subst hsave
    rw [onPublish_start_failed e w w1 w2 ev err hg herr hsv]
    simp [saves, calls, gets]
  · intro pre r err post htr
    have hsk := onPublish_skeleton e w
    obtain ⟨rest, hhead, hrest⟩ := onPublish_gets e w
    have hgets : gets post = 0 := by
      rw [htr] at hhead
      cases pre with
      | nil => simp at hhead
      | cons x pre1 =>
        simp only [List.cons_append, List.cons.injEq] at hhead
        rw [← hhead.2] at hrest
        simp only [gets_append, gets] at hrest
        omega
    rw [htr] at hsk
    simp only [List.filter_append, List.filter_cons, isSaveOrCall, if_true] at hsk
    have hfpost : post.filter isSaveOrCall = [] := by
      rcases hsk with h | ⟨ev, hev, -, ⟨err1, h⟩ | ⟨cs, last, res2, h, -⟩⟩
      · simp at h
      · cases hp : pre.filter isSaveOrCall with
        | nil =>
          rw [hp] at h
          simp only [List.nil_append, List.cons.injEq] at h
          exact h.2
        | cons a m => rw [hp] at h; simp at h
      · cases hp : pre.filter isSaveOrCall with
        | nil =>
          rw [hp] at h
          simp at h
        | cons a m =>
          rw [hp] at h
          simp only [List.cons_append, List.cons.injEq] at h
          exact nothing_after_last_save cs _ m _ r (some err) h.2
    refine ⟨?_, ?_, hgets⟩
    · rw [← saves_filter_isSaveOrCall, hfpost]; rfl
    · rw [← calls_filter_isSaveOrCall, hfpost]; rfl

/-- Instance on `sysBroken`: the started-save fails, no handler is invoked. -/
theorem C14_step_stops_at_failure_witness :
    saves (sysBroken.onPublish ⟨5, some orderCreated⟩).trace =
        [{ orderCreated with StartedAt := some 6 }] ∧
      calls (sysBroken.onPublish ⟨5, some orderCreated⟩).trace = [] ∧
      gets (sysBroken.onPublish ⟨5, some orderCreated⟩).trace = 1 :=
  (C14_step_stops_at_failure sysBroken ⟨5, some orderCreated⟩).2.1
    orderCreated "disk full" rfl rfl rfl

/-! ## Failure of a datastore call in `Restart` -/

/-- C15: when the `GetEvent` call of `Restart` fails, or the `SaveEvent` call on
the cleared record fails, `Restart` starts no processing attempt; when
`GetEvent` fails it makes no `SaveEvent` call. -/
theorem C15_restart_failure_triggers_nothing {S P : Type} (e : EventSystem S P)
    (w : World S)
    (hfail : (e.datastore.GetEvent w).1.2 ≠ none ∨
      ∃ ev err, (e.datastore.GetEvent w).1 = (some ev, none) ∧ ev.Error ≠ none ∧
        (e.datastore.SaveEvent { ev with Error := none } (e.datastore.GetEvent w).2).1
          = some err) :
    spawns (e.Restart w).trace = 0 ∧
      ((e.datastore.GetEvent w).1.2 ≠ none → saves (e.Restart w).trace = []) := by
  rcases hget : e.datastore.GetEvent w with ⟨⟨cand, ferr⟩, w1⟩
  rw [hget] at hfail
  cases ferr with
  | some fe =>
    rw [restart_get_failed e w w1 cand fe hget]
    simp [spawns, saves]
  | none =>
    rcases hfail with h | ⟨ev, err, hc, herr, hsave⟩
    · simp at h
    · simp only [Prod.mk.injEq, and_true] at hc
      subst hc
      cases hx : ev.Error with
      | none => exact absurd hx herr
      | some x =>
        rcases hsv : e.datastore.SaveEvent { ev with Error := none } w1 with ⟨sr, w2⟩
        simp only at hsave
        rw [hsv] at hsave
        simp only at hsave
        subst hsave
        rw [restart_save_failed e w w1 w2 ev x err hget hx hsv]
        simp [spawns]

/-- Instance on `sysDown`, whose `GetEvent` fails. -/
theorem C15_restart_failure_triggers_nothing_witness :
    spawns (sysDown.Restart ⟨5, some orderFailed⟩).trace = 0 ∧
      ((sysDown.datastore.GetEvent ⟨5, some orderFailed⟩).1.2 ≠ none →
        saves (sysDown.Restart ⟨5, some orderFailed⟩).trace = []) :=
  C15_restart_failure_triggers_nothing sysDown ⟨5, some orderFailed⟩ (Or.inl (by decide))

/-! ## Second attempt after `Restart` -/

theorem dispatch_calls_prefix {S P : Type} (p : P) (bound : List (Nat × EventHandler S P))
    (w : World S) :
    (dispatch p bound w).1.map Prod.fst <+: bound.map Prod.fst := by
  induction bound generalizing w with
  | nil => simp [dispatch]
  | cons b rest ih =>
    obtain ⟨i, hd⟩ := b
    rcases hh : hd.Handler p w with ⟨r, w1⟩
    cases r with
    | some err =>
      simp only [dispatch, hh, List.map_cons, List.map_nil]
      exact ⟨rest.map Prod.fst, rfl⟩
    | none =>
      simp only [dispatch, hh, List.map_cons]
      exact (List.prefix_cons_inj i).mpr (ih w1)

theorem dispatch_calls_payload {S P : Type} (p : P) (bound : List (Nat × EventHandler S P))
    (w : World S) (c : Nat × P × Option Err) (hc : c ∈ (dispatch p bound w).1) :
    c.2.1 = p := by
  induction bound generalizing w with
  | nil => simp [dispatch] at hc
  | cons b rest ih =>
    obtain ⟨i, hd⟩ := b
    rcases hh : hd.Handler p w with ⟨r, w1⟩
    cases r with
    | some err =>
      simp only [dispatch, hh, List.mem_singleton] at hc
      subst hc; rfl
    | none =>
      simp only [dispatch, hh, List.mem_cons] at hc
      rcases hc with hc | hc
      · subst hc; rfl
      · exact ih w1 hc

/-- Bound handlers registered before an invoked one were invoked and succeeded. -/
theorem dispatch_earlier_succeeded {S P : Type} (p : P)
    (bound : List (Nat × EventHandler S P))
    (hsorted : (bound.map Prod.fst).Pairwise (· < ·)) (w : World S)
    (c : Nat × P × Option Err) (hc : c ∈ (dispatch p bound w).1)
    (j : Nat) (hj : j ∈ bound.map Prod.fst) (hlt : j < c.1) :
    (j, p, none) ∈ (dispatch p bound w).1 := by
  induction bound generalizing w with
  | nil => simp at hj
  | cons b rest ih =>
    obtain ⟨i, hd⟩ := b
    simp only [List.map_cons, List.pairwise_cons] at hsorted
    simp only [List.map_cons, List.mem_cons] at hj
    rcases hh : hd.Handler p w with ⟨r, w1⟩
    cases r with
    | some err =>
      simp only [dispatch, hh, List.mem_singleton] at hc ⊢
      subst hc
      simp only at hlt
      rcases hj with hj | hj
      · omega
      · have := hsorted.1 j hj
        omega
    | none =>
      simp only [dispatch, hh, List.mem_cons] at hc ⊢
      rcases hj with hj | hj
      · left; rw [hj]
      · rcases hc with hc | hc
        · subst hc
          simp only at hlt
          have := hsorted.1 j hj
          omega
        · exact Or.inr (ih hsorted.2 w1 hc hj)

/-- A bound handler is invoked unless one registered before it fails. -/
theorem dispatch_invoked_or_earlier_failed {S P : Type} (p : P)
    (bound : List (Nat × EventHandler S P))
    (hsorted : (bound.map Prod.fst).Pairwise (· < ·)) (w : World S)
    (i : Nat) (hi : i ∈ bound.map Prod.fst) :
    (∃ res, (i, p, res) ∈ (dispatch p bound w).1) ∨
      ∃ j x, (j, p, some x) ∈ (dispatch p bound w).1 ∧ j < i := by
  induction bound generalizing w with
  | nil => simp at hi
  | cons b rest ih =>
    obtain ⟨k, hd⟩ := b
    simp only [List.map_cons, List.pairwise_cons] at hsorted
    simp only [List.map_cons, List.mem_cons] at hi
    rcases hh : hd.Handler p w with ⟨r, w1⟩
    cases r with
    | some err =>
      simp only [dispatch, hh, List.mem_singleton]
      rcases hi with hi | hi
      · left; exact ⟨some err, by rw [hi]⟩
      · right; exact ⟨k, err, rfl, hsorted.1 i hi⟩
    | none =>
      simp only [dispatch, hh, List.mem_cons]
      rcases hi with hi | hi
      · left; exact ⟨none, Or.inl (by rw [hi])⟩
      · rcases ih hsorted.2 w1 hi with ⟨res, h⟩ | ⟨j, x, h, hlt⟩
        · left; exact ⟨res, Or.inr h⟩
        · right; exact ⟨j, x, Or.inr h, hlt⟩

theorem onPublish_calls_eq_dispatch {S P : Type} (e : EventSystem S P) (w w1 w2 : World S)
    (ev : Event P)
    (hget : e.datastore.GetEvent w = ((some ev, none), w1)) (herr : ev.Error = none)
    (hsave : e.datastore.SaveEvent { ev with StartedAt := some w1.now } w1 = (none, w2)) :
    calls (e.onPublish w).trace = (dispatch ev.Payload (matching e.handlers ev.Name) w2).1 := by
  cases hd : (dispatch ev.Payload (matching e.handlers ev.Name) w2).2.1 with
  | none =>
    obtain ⟨res, w4, tail, heq, -, hc, -, -, -⟩ :=
      onPublish_handlers_ok e w w1 w2 ev hget herr hsave hd
    rw [heq]; simp [calls, hc]
  | some de =>
    obtain ⟨res, w3, tail, heq, -, hc, -, -, -⟩ :=
      onPublish_handler_failed e w w1 w2 ev de hget herr hsave hd
    rw [heq]; simp [calls, hc]

/-- C16, on `sysFlaky`: in the first attempt the handlers at positions 0 and 1
succeed and the one at position 2 fails; `Restart` clears the error and starts
an attempt; in the second attempt on the same record the handler at position
0 fails, so the handler at position 1, which succeeded in the failed attempt,
is not invoked a second time. -/
theorem C16_succeeded_handler_not_reinvoked :
    calls (sysFlaky.onPublish ⟨5, some orderCreated⟩).trace =
        [(0, 1, none), (1, 1, none), (2, 1, some "insufficient stock")] ∧
      (sysFlaky.onPublish ⟨5, some orderCreated⟩).world =
        ⟨11, some { orderCreated with
          StartedAt := some 6, Error := some "insufficient stock" }⟩ ∧
      saves (sysFlaky.Restart (sysFlaky.onPublish ⟨5, some orderCreated⟩).world).trace =
        [{ orderCreated with StartedAt := some 6 }] ∧
      spawns (sysFlaky.Restart (sysFlaky.onPublish ⟨5, some orderCreated⟩).world).trace = 1 ∧
      (sysFlaky.onPublish
          (sysFlaky.Restart (sysFlaky.onPublish ⟨5, some orderCreated⟩).world).world).trace =
        [Action.get (some { orderCreated with StartedAt := some 6 }) none,
          Action.save { orderCreated with StartedAt := some 14 } none,
          Action.call 0 1 (some "too late"),
          Action.save { orderCreated with StartedAt := some 14, Error := some "too late" }
            none] ∧
      ¬ ∀ c ∈ calls (sysFlaky.onPublish ⟨5, some orderCreated⟩).trace, c.2.2 = none →
          c.1 ∈ (calls (sysFlaky.onPublish
            (sysFlaky.Restart
              (sysFlaky.onPublish ⟨5, some orderCreated⟩).world).world).trace).map Prod.fst := by
  refine ⟨by decide, by decide, by decide, by decide, by decide, by decide⟩

/-- C16 as amended: after a failing attempt on `R`, a `Restart` that fetches
the errored record, and a second attempt that fetches the cleared record and
whose started-save succeeds, `Restart` saves the record with the error
cleared, and the second attempt invokes the handlers bound to the name of `R`
from the first one, in registration order, on the payload of `R`; if no
handler that succeeded in the failed attempt fails in the second, every
handler that succeeded in the failed attempt is invoked a second time. -/
theorem C16_second_attempt_restarts_from_first_handler {S P : Type}
    (e : EventSystem S P) (R : Event P) (err : Err)
    (w0 w1 w2 wr wr1 v0 v1 v2 : World S)
    (hget1 : e.datastore.GetEvent w0 = ((some R, none), w1)) (hR : R.Error = none)
    (hsave1 : e.datastore.SaveEvent { R with StartedAt := some w1.now } w1 = (none, w2))
    (hfail1 : (dispatch R.Payload (matching e.handlers R.Name) w2).2.1 = some err)
    (hgetr : e.datastore.GetEvent wr =
      ((some { R with StartedAt := some w1.now, Error := some err }, none), wr1))
    (hget2 : e.datastore.GetEvent v0 =
      ((some { R with StartedAt := some w1.now, Error := none }, none), v1))
    (hsave2 : e.datastore.SaveEvent
      { R with StartedAt := some v1.now, Error := none } v1 = (none, v2))
    (hagain : ∀ c ∈ calls (e.onPublish w0).trace, c.2.2 = none →
      ∀ d ∈ calls (e.onPublish v0).trace, d.1 = c.1 → d.2.2 = none) :
    (saves (e.onPublish w0).trace).getLast? =
        some { R with StartedAt := some w1.now, Error := some err } ∧
      saves (e.Restart wr).trace = [{ R with StartedAt := some w1.now, Error := none }] ∧
      (calls (e.onPublish v0).trace).map Prod.fst <+:
        (matching e.handlers R.Name).map Prod.fst ∧
      (∀ d ∈ calls (e.onPublish v0).trace, d.2.1 = R.Payload) ∧
      ∀ c ∈ calls (e.onPublish w0).trace, c.2.2 = none →
        c.1 ∈ (calls (e.onPublish v0).trace).map Prod.fst := by
  have hc1 := onPublish_calls_eq_dispatch e w0 w1 w2 R hget1 hR hsave1
  have hc2 : calls (e.onPublish v0).trace =
      (dispatch R.Payload (matching e.handlers R.Name) v2).1 :=
    onPublish_calls_eq_dispatch e v0 v1 v2
      { R with StartedAt := some w1.now, Error := none } hget2 rfl hsave2
  have hsorted := matching_sorted e.handlers R.Name
  refine ⟨?_, ?_, ?_, ?_, ?_⟩
  · obtain ⟨res, w3, tail, heq, hs, -, -, -, -⟩ :=
      onPublish_handler_failed e w0 w1 w2 R err hget1 hR hsave1 hfail1
    rw [heq]
    simp [saves, hs]
  · rcases hsv : e.datastore.SaveEvent
      { R with StartedAt := some w1.now, Error := none } wr1 with ⟨sr, wr2⟩
    cases sr with
    | none =>
      rw [restart_cleared e wr wr1 wr2 _ err hgetr rfl hsv]
      simp [saves]
    | some se =>
      rw [restart_save_failed e wr wr1 wr2 _ err se hgetr rfl hsv]
      simp [saves]
  · rw [hc2]
    exact dispatch_calls_prefix _ _ _
  · rw [hc2]
    intro d hd
    exact dispatch_calls_payload _ _ _ d hd
  · intro c hc hres
    rw [hc1] at hc
    have hmem := dispatch_calls_mem _ _ _ c hc
    have hpay := dispatch_calls_payload _ _ _ c hc
    rcases dispatch_invoked_or_earlier_failed R.Payload _ hsorted v2 c.1 hmem with
      ⟨res, h⟩ | ⟨j, x, h, hlt⟩
    · rw [hc2]
      exact List.mem_map.mpr ⟨_, h, rfl⟩
    · exfalso
      have hj := dispatch_calls_mem _ _ _ _ h
      have hjs := dispatch_earlier_succeeded R.Payload _ hsorted w2 c hc j hj hlt
      rw [← hc1] at hjs
      rw [← hc2] at h
      have := hagain _ hjs rfl _ h rfl
      simp at this

/-- Instance on `sysFail`: the handler at position 0, which succeeded in the
failed attempt, is invoked again in the second attempt. -/
theorem C16_second_attempt_restarts_from_first_handler_witness :
    (saves (sysFail.onPublish ⟨5, some orderCreated⟩).trace).getLast? =
        some { orderCreated with StartedAt := some 6, Error := some "insufficient stock" } ∧
      saves (sysFail.Restart ⟨10, some { orderCreated with
          StartedAt := some 6, Error := some "insufficient stock" }⟩).trace =
        [{ orderCreated with StartedAt := some 6 }] ∧
      (calls (sysFail.onPublish
          ⟨12, some { orderCreated with StartedAt := some 6 }⟩).trace).map Prod.fst <+:
        (matching sysFail.handlers "order.created").map Prod.fst ∧
      (∀ d ∈ calls (sysFail.onPublish
          ⟨12, some { orderCreated with StartedAt := some 6 }⟩).trace, d.2.1 = 1) ∧
      ∀ c ∈ calls (sysFail.onPublish ⟨5, some orderCreated⟩).trace, c.2.2 = none →
        c.1 ∈ (calls (sysFail.onPublish
          ⟨12, some { orderCreated with StartedAt := some 6 }⟩).trace).map Prod.fst :=
  C16_second_attempt_restarts_from_first_handler sysFail orderCreated "insufficient stock"
    ⟨5, some orderCreated⟩ ⟨6, some orderCreated⟩
    ⟨7, some { orderCreated with StartedAt := some 6 }⟩
    ⟨10, some { orderCreated with StartedAt := some 6, Error := some "insufficient stock" }⟩
    ⟨11, some { orderCreated with StartedAt := some 6, Error := some "insufficient stock" }⟩
    ⟨12, some { orderCreated with StartedAt := some 6 }⟩
    ⟨13, some { orderCreated with StartedAt := some 6 }⟩
    ⟨14, some { orderCreated with StartedAt := some 13 }⟩
    rfl rfl rfl (by decide) rfl rfl rfl (by decide)

/-! ## Two steps running concurrently -/

/-- The step `onPublish` is its two halves run one after the other. -/
theorem onPublish_eq_fetchThenProcess {S P : Type} (e : EventSystem S P) (w : World S) :
    e.onPublish w = e.fetchThenProcess w := by
  rcases hget : e.datastore.GetEvent w with ⟨⟨cand, ferr⟩, w1⟩
  cases ferr with
  | some fe => simp [EventSystem.onPublish, EventSystem.fetchThenProcess,
      EventSystem.fetchCandidate, hget]
  | none =>
    cases cand with
    | none => simp [EventSystem.onPublish, EventSystem.fetchThenProcess,
        EventSystem.fetchCandidate, hget]
    | some ev =>
      cases herr : ev.Error with
      | some x => simp [EventSystem.onPublish, EventSystem.fetchThenProcess,
          EventSystem.fetchCandidate, hget, herr]
      | none =>
        rcases hsave : e.datastore.SaveEvent
          { ev with StartedAt := some w1.now, Error := none } w1 with ⟨sr, w2⟩
        cases sr with
        | some se =>
          simp [EventSystem.onPublish, EventSystem.fetchThenProcess,
            EventSystem.fetchCandidate, EventSystem.processCandidate, hget, herr, hsave]
        | none =>
          rcases hl : e.handlerLoop { ev with StartedAt := some w1.now, Error := none }
            e.handlers 0 w2 with ⟨fin, w3, tr⟩
          cases fin with
          | false =>
            simp [EventSystem.onPublish, EventSystem.fetchThenProcess,
              EventSystem.fetchCandidate, EventSystem.processCandidate, hget, herr, hsave, hl]
          | true =>
            rcases hfs : e.datastore.SaveEvent
              { ev with StartedAt := some w1.now, FinishedAt := some w3.now, Error := none }
              w3 with ⟨fr, w4⟩
            cases fr <;>
              simp [EventSystem.onPublish, EventSystem.fetchThenProcess,
                EventSystem.fetchCandidate, EventSystem.processCandidate, hget, herr, hsave,
                hl, hfs]

/-- C17: on `sysOk`, in the interleaving where step A fetches, then step B
fetches, then A runs its second half, then B runs its second half, both
fetches give the same record, not yet saved as started, and the handler at
position 0 is invoked once by A and once by B for that record. -/
theorem C17_two_steps_invoke_handler_twice :
    (sysOk.fetchCandidate ⟨5, some orderCreated⟩).ret = some (some orderCreated) ∧
      (sysOk.fetchCandidate (sysOk.fetchCandidate ⟨5, some orderCreated⟩).world).ret =
        some (some orderCreated) ∧
      saves ((sysOk.fetchCandidate ⟨5, some orderCreated⟩).trace ++
        (sysOk.fetchCandidate (sysOk.fetchCandidate ⟨5, some orderCreated⟩).world).trace) = [] ∧
      orderCreated.StartedAt = none ∧
      calls (sysOk.processCandidate orderCreated
          (sysOk.fetchCandidate (sysOk.fetchCandidate ⟨5, some orderCreated⟩).world).world).trace
        = [(0, 1, none), (2, 1, none)] ∧
      calls (sysOk.processCandidate orderCreated
          (sysOk.processCandidate orderCreated
            (sysOk.fetchCandidate
              (sysOk.fetchCandidate ⟨5, some orderCreated⟩).world).world).world).trace
        = [(0, 1, none), (2, 1, none)] ∧
      (calls
        ((sysOk.fetchCandidate ⟨5, some orderCreated⟩).trace ++
          (sysOk.fetchCandidate (sysOk.fetchCandidate ⟨5, some orderCreated⟩).world).trace ++
          (sysOk.processCandidate orderCreated
            (sysOk.fetchCandidate
              (sysOk.fetchCandidate ⟨5, some orderCreated⟩).world).world).trace ++
          (sysOk.processCandidate orderCreated
            (sysOk.processCandidate orderCreated
              (sysOk.fetchCandidate
                (sysOk.fetchCandidate ⟨5, some orderCreated⟩).world).world).world).trace)).count
        (0, 1, none) = 2 := by
  refine ⟨by decide, by decide, by decide, by decide, by decide, by decide, by decide⟩

/-! ## Candidates that are already started -/

/-- C18, on `sysOk`: for the candidate `orderRestarted`, whose `StartedAt` is
already set, the step invokes handlers and saves the record with `StartedAt`
overwritten. -/
theorem C18_started_candidate_is_run :
    orderRestarted.StartedAt = some 2 ∧
      (slotStore.GetEvent ⟨5, some orderRestarted⟩).1 = (some orderRestarted, none) ∧
      calls (sysOk.onPublish ⟨5, some orderRestarted⟩).trace = [(0, 1, none), (2, 1, none)] ∧
      saves (sysOk.onPublish ⟨5, some orderRestarted⟩).trace =
        [{ orderRestarted with StartedAt := some 6 },
         { orderRestarted with StartedAt := some 6, FinishedAt := some 9 }] ∧
      ¬(calls (sysOk.onPublish ⟨5, some orderRestarted⟩).trace = [] ∧
        ∀ r ∈ saves (sysOk.onPublish ⟨5, some orderRestarted⟩).trace,
          r.StartedAt = orderRestarted.StartedAt) := by
  refine ⟨by decide, by decide, by decide, by decide, by decide⟩

/-- C18 as amended: `onPublish` runs the candidate `GetEvent` gives whenever it
carries no error, whether or not its `StartedAt` is already set: if it carries
no error, the first `SaveEvent` call of the step is on the
record with `StartedAt` overwritten by the current time and, when that call
succeeds, the handlers bound to its name are invoked; if it carries an error,
no handler is invoked and nothing is saved. -/
theorem C18_step_runs_candidate_without_error {S P : Type} (e : EventSystem S P)
    (w w1 : World S) (ev : Event P)
    (hget : e.datastore.GetEvent w = ((some ev, none), w1)) :
    (ev.Error ≠ none →
        calls (e.onPublish w).trace = [] ∧ saves (e.onPublish w).trace = []) ∧
      (ev.Error = none →
        (saves (e.onPublish w).trace).head? = some { ev with StartedAt := some w1.now } ∧
          ∀ w2, e.datastore.SaveEvent { ev with StartedAt := some w1.now } w1 = (none, w2) →
            calls (e.onPublish w).trace =
              (dispatch ev.Payload (matching e.handlers ev.Name) w2).1) := by
  constructor
  · intro herr
    cases hx : ev.Error with
    | none => exact absurd hx herr
    | some x =>
      rw [onPublish_blocked e w w1 ev x hget hx]
      simp [calls, saves]
  · intro herr
    constructor
    · rcases hsave : e.datastore.SaveEvent { ev with StartedAt := some w1.now } w1
        with ⟨sr, w2⟩
      cases sr with
      | some se =>
        rw [onPublish_start_failed e w w1 w2 ev se hget herr hsave]
        simp [saves]
      | none =>
        cases hd : (dispatch ev.Payload (matching e.handlers ev.Name) w2).2.1 with
        | none =>
          obtain ⟨res, w4, tail, heq, -, -, -, -, -⟩ :=
            onPublish_handlers_ok e w w1 w2 ev hget herr hsave hd
          rw [heq]
          simp [saves]
        | some de =>
          obtain ⟨res, w3, tail, heq, -, -, -, -, -⟩ :=
            onPublish_handler_failed e w w1 w2 ev de hget herr hsave hd
          rw [heq]
          simp [saves]
    · intro w2 hsave
      exact onPublish_calls_eq_dispatch e w w1 w2 ev hget herr hsave

/-- Instance on `sysOk` with the started record as candidate. -/
theorem C18_step_runs_candidate_without_error_witness :
    (orderRestarted.Error ≠ none →
        calls (sysOk.onPublish ⟨5, some orderRestarted⟩).trace = [] ∧
          saves (sysOk.onPublish ⟨5, some orderRestarted⟩).trace = []) ∧
      (orderRestarted.Error = none →
        (saves (sysOk.onPublish ⟨5, some orderRestarted⟩).trace).head? =
            some { orderRestarted with StartedAt := some 6 } ∧
          ∀ w2, sysOk.datastore.SaveEvent { orderRestarted with StartedAt := some 6 }
              ⟨6, some orderRestarted⟩ = (none, w2) →
            calls (sysOk.onPublish ⟨5, some orderRestarted⟩).trace =
              (dispatch orderRestarted.Payload
                (matching sysOk.handlers orderRestarted.Name) w2).1) :=
  C18_step_runs_candidate_without_error sysOk ⟨5, some orderRestarted⟩
    ⟨6, some orderRestarted⟩ orderRestarted rfl

/-! ## Fields the step and `Restart` leave alone -/

/-- C19: every record `onPublish` passes to `SaveEvent` is the record its
`GetEvent` call fetched with `ID`, `Name`, `Payload` and `PublishedAt`
unchanged; every record `Restart` passes to `SaveEvent` is the record its
`GetEvent` call fetched with only `Error` changed (cleared). -/
theorem C19_saved_records_keep_identity {S P : Type} (e : EventSystem S P) (w : World S) :
    (∀ r ∈ saves (e.onPublish w).trace,
        ∃ ev, (e.datastore.GetEvent w).1.1 = some ev ∧
          r.ID = ev.ID ∧ r.Name = ev.Name ∧ r.Payload = ev.Payload ∧
          r.PublishedAt = ev.PublishedAt) ∧
      (∀ r ∈ saves (e.Restart w).trace,
        ∃ ev, (e.datastore.GetEvent w).1.1 = some ev ∧
          r.ID = ev.ID ∧ r.Name = ev.Name ∧ r.Payload = ev.Payload ∧
          r.PublishedAt = ev.PublishedAt ∧ r.StartedAt = ev.StartedAt ∧
          r.FinishedAt = ev.FinishedAt ∧ r.Error = none) := by
  constructor
  · intro r hr
    obtain ⟨ev, hev, -, h | ⟨err, h⟩ | ⟨t, h⟩⟩ := onPublish_saves_cases e w r hr
    · exact ⟨ev, hev, by rw [h], by rw [h], by rw [h], by rw [h]⟩
    · exact ⟨ev, hev, by rw [h], by rw [h], by rw [h], by rw [h]⟩
    · exact ⟨ev, hev, by rw [h], by rw [h], by rw [h], by rw [h]⟩
  · intro r hr
    obtain ⟨ev, hev, -, h⟩ := restart_saves_cases e w r hr
    exact ⟨ev, hev, by rw [h], by rw [h], by rw [h], by rw [h], by rw [h], by rw [h],
      by rw [h]⟩

/-! ## Logging -/

@[simp]
theorem unlogged_append {P : Type} (a b : List (Action P)) :
    unlogged (a ++ b) = unlogged a ++ unlogged b := by
  induction a with
  | nil => rfl
  | cons x t ih => cases x <;> simp [unlogged, ih]

@[simp]
theorem unlogged_log {S P : Type} (e : EventSystem S P) (m : String) :
    unlogged (e.log m : List (Action P)) = [] := by
  unfold EventSystem.log; split <;> rfl

theorem logs_unlogged {P : Type} (tr : List (Action P)) : logs (unlogged tr) = [] := by
  induction tr with
  | nil => rfl
  | cons x t ih => cases x <;> simp [unlogged, logs, ih]

theorem log_disabled {S P : Type} (e : EventSystem S P) (m : String) :
    (EventSystem.log { e with enableLog := false } m : List (Action P)) = [] := by
  simp [EventSystem.log]

/-- The handler loop with logging disabled does what it does with the flag of
`e`, less the printed lines. -/
theorem handlerLoop_unlogged {S P : Type} (e : EventSystem S P) (event : Event P)
    (hs : List (EventHandler S P)) (idx : Nat) (w : World S) :
    EventSystem.handlerLoop { e with enableLog := false } event hs idx w =
      ((e.handlerLoop event hs idx w).1, (e.handlerLoop event hs idx w).2.1,
        unlogged (e.handlerLoop event hs idx w).2.2) := by
  induction hs generalizing idx w with
  | nil => simp [EventSystem.handlerLoop, unlogged]
  | cons h rest ih =>
    by_cases hm : h.Event = event.Name
    · rcases hh : h.Handler event.Payload w with ⟨r, w1⟩
      cases r with
      | some err =>
        rcases hsv : e.datastore.SaveEvent { event with Error := some err } w1 with ⟨r2, w2⟩
        cases r2 <;>
          simp [EventSystem.handlerLoop, hm, hh, hsv, unlogged, log_disabled]
      | none =>
        simp [EventSystem.handlerLoop, hm, hh, ih, unlogged]
    · simp [EventSystem.handlerLoop, hm, ih]

theorem publish_unlogged {S P : Type} (e : EventSystem S P) (name : String) (payload : P)
    (w : World S) :
    EventSystem.Publish { e with enableLog := false } name payload w =
      (e.Publish name payload w).unlogged := by
  rcases hs : e.datastore.SaveEvent (newEvent name payload w) w with ⟨o, w1⟩
  simp only [newEvent] at hs
  cases o <;>
    simp [EventSystem.Publish, Run.unlogged, hs, unlogged, log_disabled]

theorem onPublish_unlogged {S P : Type} (e : EventSystem S P) (w : World S) :
    EventSystem.onPublish { e with enableLog := false } w = (e.onPublish w).unlogged := by
  rcases hget : e.datastore.GetEvent w with ⟨⟨cand, ferr⟩, w1⟩
  cases ferr with
  | some fe =>
    simp [EventSystem.onPublish, Run.unlogged, hget, unlogged, log_disabled]
  | none =>
    cases cand with
    | none => simp [EventSystem.onPublish, Run.unlogged, hget, unlogged, log_disabled]
    | some ev =>
      cases herr : ev.Error with
      | some x => simp [EventSystem.onPublish, Run.unlogged, hget, herr, unlogged]
      | none =>
        rcases hsave : e.datastore.SaveEvent
          { ev with StartedAt := some w1.now, Error := none } w1 with ⟨sr, w2⟩
        cases sr with
        | some se =>
          simp [EventSystem.onPublish, Run.unlogged, hget, herr, hsave, unlogged,
            log_disabled]
        | none =>
          have hloop := handlerLoop_unlogged e
            { ev with StartedAt := some w1.now, Error := none } e.handlers 0 w2
          rcases hl : e.handlerLoop { ev with StartedAt := some w1.now, Error := none }
            e.handlers 0 w2 with ⟨fin, w3, tr⟩
          rw [hl] at hloop
          simp only at hloop
          cases fin with
          | false =>
            simp [EventSystem.onPublish, Run.unlogged, hget, herr, hsave, hl, hloop, unlogged]
          | true =>
            rcases hfs : e.datastore.SaveEvent
              { ev with StartedAt := some w1.now, FinishedAt := some w3.now, Error := none }
              w3 with ⟨fr, w4⟩
            cases fr <;>
              simp [EventSystem.onPublish, Run.unlogged, hget, herr, hsave, hl, hloop, hfs,
                unlogged, log_disabled]

theorem restart_unlogged {S P : Type} (e : EventSystem S P) (w : World S) :
    EventSystem.Restart { e with enableLog := false } w = (e.Restart w).unlogged := by
  rcases hget : e.datastore.GetEvent w with ⟨⟨cand, ferr⟩, w1⟩
  cases ferr with
  | some fe => simp [EventSystem.Restart, Run.unlogged, hget, unlogged, log_disabled]
  | none =>
    cases cand with
    | none => simp [EventSystem.Restart, Run.unlogged, hget, unlogged, log_disabled]
    | some ev =>
      cases herr : ev.Error with
      | none => simp [EventSystem.Restart, Run.unlogged, hget, herr, unlogged, log_disabled]
      | some x =>
        rcases hsv : e.datastore.SaveEvent { ev with Error := none } w1 with ⟨sr, w2⟩
        cases sr <;>
          simp [EventSystem.Restart, Run.unlogged, hget, herr, hsv, unlogged, log_disabled]

/-- C20: setting the logging flag of `e` to any value `b` changes, for
`Register`, the printed lines only (same handler list, same datastore), and
for `Publish`, the processing step and `Restart` neither the result, nor the
world left, nor the trace without the printed lines (the datastore calls with
their records and results, the handler invocations and the goroutines started,
in order); with the flag off no line is printed. -/
theorem C20_logging_is_a_side_channel {S P : Type} (e : EventSystem S P) (b : Bool)
    (handler : EventHandler S P) (name : String) (payload : P) (w : World S) :
    ((EventSystem.Register { e with enableLog := b } handler).1.handlers =
          (e.Register handler).1.handlers ∧
        (EventSystem.Register { e with enableLog := b } handler).1.datastore =
          (e.Register handler).1.datastore ∧
        unlogged (EventSystem.Register { e with enableLog := b } handler).2 =
          unlogged (e.Register handler).2) ∧
      (EventSystem.Publish { e with enableLog := b } name payload w).unlogged =
        (e.Publish name payload w).unlogged ∧
      (EventSystem.onPublish { e with enableLog := b } w).unlogged =
        (e.onPublish w).unlogged ∧
      (EventSystem.Restart { e with enableLog := b } w).unlogged = (e.Restart w).unlogged ∧
      (logs (EventSystem.Register { e with enableLog := false } handler).2 = [] ∧
        logs (EventSystem.Publish { e with enableLog := false } name payload w).trace = [] ∧
        logs (EventSystem.onPublish { e with enableLog := false } w).trace = [] ∧
        logs (EventSystem.Restart { e with enableLog := false } w).trace = []) := by
  refine ⟨⟨rfl, rfl, by simp [EventSystem.Register]⟩, ?_, ?_, ?_, ?_, ?_, ?_, ?_⟩
  · exact (publish_unlogged { e with enableLog := b } name payload w).symm.trans
      (publish_unlogged e name payload w)
  · exact (onPublish_unlogged { e with enableLog := b } w).symm.trans (onPublish_unlogged e w)
  · exact (restart_unlogged { e with enableLog := b } w).symm.trans (restart_unlogged e w)
  · simp [EventSystem.Register, EventSystem.log, logs]
  · rw [publish_unlogged]; exact logs_unlogged _
  · rw [onPublish_unlogged]; exact logs_unlogged _
  · rw [restart_unlogged]; exact logs_unlogged _

end GoEventSystem
